import Mathlib

/-
Verification of the Tag Genius classification-cache-render pipeline
(src/app.py) against its specification.

Shallow embedding notes:
- JSON values are modelled by the inductive type `Json`; JSON numbers are
  modelled as integers only (no claim in scope depends on float values).
  Python `None` coincides with JSON `null` (as it does after `json.loads`).
- Python dicts originating from JSON are modelled as insertion-ordered
  association lists `Dict := List (String × Json)` with first-match lookup
  and in-place overwrite, matching CPython dict semantics.
- Network interaction of the classifier client is modelled by an oracle
  `Nat → Attempt` giving, for each attempt index, either a transport error
  (`requests.exceptions.RequestException`, which covers HTTP errors and
  timeouts) or an HTTP success carrying the decoded response envelope and
  the result of `json.loads` on the extracted content string (`none` when
  the content is not decodable JSON).
- Fallible Python code paths (IndexError / TypeError / AttributeError /
  KeyError raised by subscripting and attribute access) are modelled with
  `Except PyErr`.
-/

set_option autoImplicit false

namespace TagGenius

/-- JSON values as produced by `json.loads`. Numbers are modelled as
integers; the repository never manipulates fractional values in the code
under verification. -/
inductive Json where
  | null
  | bool (b : Bool)
  | num (n : Int)
  | str (s : String)
  | arr (xs : List Json)
  | obj (kvs : List (String × Json))

/-- A Python dict obtained from JSON: string keys in insertion order. -/
abbrev Dict := List (String × Json)

/-- First-match lookup, Python `d[k]` / `d.get(k)` on a JSON-derived dict. -/
def dictGet : Dict → String → Option Json
  | [], _ => none
  | (k, v) :: r, key => if k = key then some v else dictGet r key

/-- Python `d[k] = v`: overwrite in place when the key exists, else append. -/
def dictSet : Dict → String → Json → Dict
  | [], key, val => [(key, val)]
  | (k, v) :: r, key, val =>
      if k = key then (k, val) :: r else (k, v) :: dictSet r key val

/-- Python `k in d`. -/
def dictMember (d : Dict) (k : String) : Bool :=
  (dictGet d k).isSome

/-- Python `d.get(k)` where an absent key yields `None` (= JSON null). -/
def pyDictGet (d : Dict) (k : String) : Json :=
  (dictGet d k).getD .null

/-- Python `d.update(kvs)`: sequence of assignments in order. -/
def dictUpdate (d : Dict) (kvs : List (String × Json)) : Dict :=
  kvs.foldl (fun a kv => dictSet a kv.1 kv.2) d

/-- Python truthiness of a JSON-derived value. -/
def truthy : Json → Bool
  | .null => false
  | .bool b => b
  | .num n => n != 0
  | .str s => s != ""
  | .arr xs => !xs.isEmpty
  | .obj kvs => !kvs.isEmpty

/-- Python `isinstance(x, int)` on a JSON value (bool is a subclass of int). -/
def jsonIsInt : Json → Bool
  | .num _ => true
  | .bool _ => true
  | _ => false

/-- Integer value of a JSON value for arithmetic comparisons
(`True` counts as 1, `False` as 0). `none` for non-numeric values. -/
def jsonIntVal : Json → Option Int
  | .num n => some n
  | .bool true => some 1
  | .bool false => some 0
  | _ => none

/-- Python `str(x)` for the numeric values fed into comment rendering. -/
def pyIntStr : Json → String
  | .num n => toString n
  | .bool true => "True"
  | .bool false => "False"
  | _ => ""

-- ---------------------------------------------------------------------------
-- String helpers mirroring the Python string methods used by the source.
-- ---------------------------------------------------------------------------

/-- The whitespace characters removed by Python `str.strip()`. -/
def pySpace (c : Char) : Bool :=
  c = ' ' || c = '\t' || c = '\n' || c = '\r' || c = '\x0b' || c = '\x0c'

/-- Python `s.strip()`. -/
def pyStrip (s : String) : String :=
  String.mk (((s.toList.dropWhile pySpace).reverse.dropWhile pySpace).reverse)

/-- Python `s.lower()` (ASCII; all strings in scope are ASCII). -/
def pyLower (s : String) : String :=
  String.mk (s.toList.map Char.toLower)

/-- Python `s.capitalize()`: first character uppercased, the rest lowercased. -/
def pyCapitalize (s : String) : String :=
  match s.toList with
  | [] => ""
  | c :: r => String.mk (Char.toUpper c :: r.map Char.toLower)

/-- First segment of the re.split on the class [,/]: the text before the first
comma or slash (the whole string when neither occurs). -/
def firstSeg (s : String) : String :=
  String.mk (s.toList.takeWhile (fun c => !(c = ',' || c = '/')))

/-- Python `sep.join(parts)` over strings. -/
def joinSep (sep : String) : List String → String
  | [] => ""
  | [x] => x
  | x :: y :: r => x ++ sep ++ joinSep sep (y :: r)

/-- Python `str(n).zfill(2)`: the only sub-two-character inputs in scope are
single digits of nonnegative integers. -/
def zfill2 (s : String) : String :=
  if s.length < 2 then "0" ++ s else s

/-- Scan for the closing `*/` of an open comment block, failing on a
newline first (the regex `.` does not match newlines). Returns the suffix
after the closing delimiter. -/
def findClose : List Char → Option (List Char)
  | [] => none
  | '\n' :: _ => none
  | '*' :: '/' :: r => some r
  | _ :: r => findClose r

/-- Fueled scanner for the re.sub removing every /\x2a.*?\x2a/ block: removes every
non-overlapping comment block, scanning left to right; an unclosed opener
is kept verbatim. `fuel` is an upper bound on steps (the string length
suffices, each step consumes at least one character). -/
def stripBlocks : Nat → List Char → List Char
  | 0, cs => cs
  | _ + 1, [] => []
  | fuel + 1, '/' :: '*' :: rest =>
      match findClose rest with
      | some r => stripBlocks fuel r
      | none => '/' :: stripBlocks fuel ('*' :: rest)
  | fuel + 1, c :: rest => c :: stripBlocks fuel rest

/-- The comment cleaning step of `clear_ai_tags`. -/
def pyStripBlocks (s : String) : String :=
  String.mk (stripBlocks s.toList.length s.toList)

-- ---------------------------------------------------------------------------
-- Classifier client: call_llm_for_tags (src/app.py lines 399-541).
-- ---------------------------------------------------------------------------

/-- Python exceptions that the modelled code can raise. -/
inductive PyErr where
  | indexError
  | typeError
  | attributeError
  | keyError
  deriving DecidableEq, Repr

/-- Outcome of one network attempt, as seen by the client code.
`transport` is any `requests.exceptions.RequestException` (HTTP error
status, timeout, connection failure — caught and retried). `http` is a
successful request: `envelope` is the decoded response body
(`response.json()`), and `parsed` is the value `json.loads` would return
on the extracted content string when that point is reached (`none` when
the content string is not valid JSON, raising `json.JSONDecodeError`). -/
inductive Attempt where
  | transport
  | http (envelope : Json) (parsed : Option Json)

/-- Prompt mode of the classifier client. -/
inductive Mode where
  | full
  | genreOnly
  deriving DecidableEq

/-- The degenerate fallback blueprint returned on a decode failure or when
all retries are exhausted (src/app.py lines 531-534 and 538-541). -/
def fallback : Mode → Dict
  | .genreOnly => [("primary_genre", .arr [.str "Miscellaneous"]), ("sub_genre", .arr [])]
  | .full => [("primary_genre", .arr [.str "Miscellaneous"]), ("sub_genre", .arr []),
              ("energy_level", .null)]

/-- The extraction
`response.json().get("choices", [..])[0].get("message", ..).get("content")`
with the Python errors each step can raise: subscripting an empty list is
an IndexError, subscripting a non-sequence is a TypeError (a dict raises
KeyError for the missing key 0, a nonempty string yields its first
character, whose `.get` raises AttributeError), and `.get` on a non-dict
raises AttributeError. -/
def extractContent (env : Json) : Except PyErr Json :=
  match env with
  | .obj kvs =>
    match (dictGet kvs "choices").getD (.arr [.obj []]) with
    | .arr [] => .error .indexError
    | .arr (c :: _) =>
      match c with
      | .obj ckvs =>
        match (dictGet ckvs "message").getD (.obj []) with
        | .obj mkvs => .ok ((dictGet mkvs "content").getD .null)
        | _ => .error .attributeError
      | _ => .error .attributeError
    | .str s => if s = "" then .error .indexError else .error .attributeError
    | .obj _ => .error .keyError
    | _ => .error .typeError
  | _ => .error .attributeError

/-- The `primary_genre` normalisation step (src/app.py lines 494-499):
a scalar string is wrapped in a singleton list; an absent or non-list
value becomes `["Miscellaneous"]`; a list is kept unchanged. -/
def normalizePG (j : Dict) : Dict :=
  match dictGet j "primary_genre" with
  | some (.str s) => dictSet j "primary_genre" (.arr [.str s])
  | some (.arr _) => j
  | _ => dictSet j "primary_genre" (.arr [.str "Miscellaneous"])

/-- The `sub_genre` normalisation step (src/app.py lines 514-518): in
`genre_only` mode an absent `sub_genre` becomes `[]`; in either mode a
present non-list `sub_genre` becomes `[]`. -/
def normalizeSub (mode : Mode) (j1 : Dict) : Dict :=
  if mode = .genreOnly && (dictGet j1 "sub_genre").isNone then
    dictSet j1 "sub_genre" (.arr [])
  else
    match dictGet j1 "sub_genre" with
    | some (.arr _) => j1
    | some _ => dictSet j1 "sub_genre" (.arr [])
    | none => j1

/-- Response normalisation (src/app.py lines 494-519), the two steps in
source order. -/
def normalize (mode : Mode) (j : Dict) : Dict :=
  normalizeSub mode (normalizePG j)

/-- The retry loop of `call_llm_for_tags` (src/app.py lines 474-541):
at most 5 attempts; a transport error sleeps `initial_delay * 2 ^ attempt`
(initial_delay = 2) and retries; a falsy content string silently falls
through to the next attempt without sleeping; undecodable content returns
the fallback immediately; decodable object content is normalised and
returned; exhausted attempts return the fallback. The accumulated sleep
delays are returned alongside the result. `i` is the attempt index,
`fuel` the remaining attempts. -/
def llmLoop (mode : Mode) (oracle : Nat → Attempt) :
    Nat → Nat → List Int → Except PyErr Dict × List Int
  | _, 0, sleeps => (.ok (fallback mode), sleeps)
  | i, fuel + 1, sleeps =>
    match oracle i with
    | .transport => llmLoop mode oracle (i + 1) fuel (sleeps ++ [2 * 2 ^ i])
    | .http env parsed =>
      match extractContent env with
      | .error e => (.error e, sleeps)
      | .ok content =>
        if truthy content then
          match content, parsed with
          | .str _, none => (.ok (fallback mode), sleeps)
          | .str _, some (.obj kvs) => (.ok (normalize mode kvs), sleeps)
          | .str _, some _ => (.error .attributeError, sleeps)
          | _, _ => (.error .typeError, sleeps)
        else llmLoop mode oracle (i + 1) fuel sleeps

/-- `call_llm_for_tags` with the API key present (the keyless mock branch
at lines 401-407 is outside the claims in scope): the result of the call
together with the sleep delays performed. -/
def call_llm_for_tags (mode : Mode) (oracle : Nat → Attempt) :
    Except PyErr Dict × List Int :=
  llmLoop mode oracle 0 5 []

-- ---------------------------------------------------------------------------
-- Rating/Colour mapper (src/app.py lines 544-557 and 959-996).
-- ---------------------------------------------------------------------------

/-- `convert_energy_to_rating` (lines 544-557): non-numeric input gives 0,
numeric input follows the staircase. Python `isinstance(x, (int, float))`
counts booleans as ints; floats are out of the model. -/
def convert_energy_to_rating (j : Json) : Int :=
  match jsonIntVal j with
  | none => 0
  | some n =>
    if n ≥ 9 then 255
    else if n = 8 then 204
    else if n ≥ 6 then 153
    else if n ≥ 4 then 102
    else 51

/-- The colour staircase of the orchestrator (lines 963-978): colour and
grouping are assigned only when `isinstance(energy_level, int)` holds;
otherwise no colour is produced (and the attributes are deleted). -/
def energyColour (j : Json) : Option (String × String) :=
  match jsonIntVal j with
  | none => none
  | some n =>
    some
      (if n ≥ 9 then ("0xFF007F", "Pink")
       else if n = 8 then ("0xFFA500", "Orange")
       else if n ≥ 6 then ("0xFFFF00", "Yellow")
       else if n ≥ 4 then ("0x00FF00", "Green")
       else ("0x25FDE9", "Aqua"))

/-- The rating actually stored by the orchestrator (lines 991-994):
`convert_energy_to_rating(energy_level) if energy_level is not None else 0`,
where an absent key and a JSON null both read as `None`. -/
def track_rating (energy : Json) : Int :=
  match energy with
  | .null => 0
  | e => convert_energy_to_rating e

-- ---------------------------------------------------------------------------
-- Config renderer: apply_user_config_to_tags (src/app.py lines 208-223).
-- ---------------------------------------------------------------------------

/-- The five trimmable categories, in the iteration order of the source. -/
def trimKeys : List String :=
  ["sub_genre", "components", "energy_vibe", "situation_environment", "time_period"]

/-- Python list slice `xs[:n]` for an integer bound: a negative bound keeps
all but the last `|n|` elements. -/
def pySliceTake (xs : List Json) (n : Int) : List Json :=
  if n < 0 then xs.take ((xs.length : Int) + n).toNat else xs.take n.toNat

/-- Python `xs[:cap]` for an arbitrary slice bound value: `None` keeps the
whole list, booleans count as 0/1, any other non-integer raises TypeError. -/
def pyTake (xs : List Json) : Json → Except PyErr (List Json)
  | .num n => .ok (pySliceTake xs n)
  | .bool b => .ok (pySliceTake xs (if b then 1 else 0))
  | .null => .ok xs
  | _ => .error .typeError

/-- The loop body of `apply_user_config_to_tags` for one trimmable key:
when the key is present in both the rendered tags and the user config and
its value is a list, slice it to the configured bound; otherwise leave
the dict alone. -/
def trimStep (cfg r : Dict) (k : String) : Except PyErr Dict :=
  match dictGet r k, dictGet cfg k with
  | some (.arr xs), some cap =>
    match pyTake xs cap with
    | .ok xs2 => .ok (dictSet r k (.arr xs2))
    | .error e => .error e
  | _, _ => .ok r

/-- The trimming loop of `apply_user_config_to_tags` over the five keys. -/
def trimFold (cfg : Dict) : List String → Dict → Except PyErr Dict
  | [], r => .ok r
  | k :: ks, r =>
    match trimStep cfg r k with
    | .ok r2 => trimFold cfg ks r2
    | .error e => .error e

/-- `apply_user_config_to_tags` (lines 208-223). The source first deep
copies the blueprint through a json round trip, so the input value is
never mutated; in the pure embedding the copy is the identity. -/
def apply_user_config_to_tags (blueprint_tags user_config : Dict) : Except PyErr Dict :=
  trimFold user_config trimKeys blueprint_tags

-- ---------------------------------------------------------------------------
-- Track records, tag clearing, and the blueprint cache.
-- ---------------------------------------------------------------------------

/-- A TRACK element of the collection: the XML attributes read or written
by the pipeline, each possibly absent. -/
structure Track where
  Name : Option String := none
  Artist : Option String := none
  Genre : Option String := none
  Comments : Option String := none
  Colour : Option String := none
  Grouping : Option String := none
  Rating : Option String := none
  AverageBpm : Option String := none
  Tonality : Option String := none
  Label : Option String := none
  Year : Option String := none
  deriving DecidableEq, Repr

/-- `clear_ai_tags` (src/app.py lines 793-804): strip comment blocks,
delete Colour and Grouping unless the manual-override sentinel colour
0xFF0000 is present, and reset Rating to "0" unconditionally. -/
def clear_ai_tags (tr : Track) : Track :=
  let tr1 := { tr with Comments := some (pyStrip (pyStripBlocks (tr.Comments.getD ""))) }
  let tr2 :=
    if tr1.Colour ≠ some "0xFF0000" then { tr1 with Colour := none, Grouping := none }
    else tr1
  { tr2 with Rating := some "0" }

/-- Cache key: the (Name, Artist) identity of a track. -/
abbrev CacheKey := Option String × Option String

/-- The tracks table restricted to what the pipeline observes: rows keyed
by identity, each carrying `tags_json` parsed (`none` models a NULL
column). -/
abbrev Cache := List (CacheKey × Option Dict)

/-- Row lookup by identity. -/
def lookupTags : Cache → CacheKey → Option (Option Dict)
  | [], _ => none
  | (k, v) :: r, key => if k = key then some v else lookupTags r key

/-- Overwrite the tags of an existing row. -/
def setTags : Cache → CacheKey → Option Dict → Cache
  | [], _, _ => []
  | (k, v) :: r, key, tags =>
      if k = key then (k, tags) :: r else (k, v) :: setTags r key tags

/-- `get_track_blueprint` (lines 191-205): a missing row, a NULL or empty
`tags_json`, and a storage or decode error all read as a miss. -/
def get_track_blueprint (cache : Cache) (key : CacheKey) : Option Dict :=
  match lookupTags cache key with
  | some (some d) => some d
  | _ => none

/-- The cache effect of `insert_track_data` (lines 228-321): an existing
row keeps its stored tags when `tags_dict` is `None` and is overwritten
otherwise; a missing row is inserted with the given tags (possibly NULL). -/
def insertTags (cache : Cache) (key : CacheKey) (tags : Option Dict) : Cache :=
  match lookupTags cache key with
  | some _ =>
    match tags with
    | some _ => setTags cache key tags
    | none => cache
  | none => cache ++ [(key, tags)]

-- ---------------------------------------------------------------------------
-- Per-track orchestration of process_library_task (src/app.py 857-1023).
-- ---------------------------------------------------------------------------

/-- Python `x if isinstance(x, str) wrapped / list kept / else []`
(the `ensure_list` helper at lines 917-922, fed with `d.get(key)`). -/
def ensure_list : Json → List Json
  | .str s => [.str s]
  | .arr xs => xs
  | _ => []

/-- Collect strings for `", ".join`, raising TypeError on a non-string. -/
def strJoinList : List Json → Except PyErr (List String)
  | [] => .ok []
  | .str s :: r => do pure (s :: (← strJoinList r))
  | _ :: _ => .error .typeError

/-- `t.strip().capitalize()` over a tag list; a non-string raises
AttributeError at `.strip`. -/
def capItems : List Json → Except PyErr (List String)
  | [] => .ok []
  | .str s :: r => do pure (pyCapitalize (pyStrip s) :: (← capItems r))
  | _ :: _ => .error .attributeError

/-- The comment segments in fixed order (lines 934-939). -/
def tagOrderAndPrefixes : List (String × String) :=
  [("situation_environment", "Sit"), ("energy_vibe", "Vibe"),
   ("components", "Comp"), ("time_period", "Time")]

/-- One `"Prefix: Tag1, Tag2"` comment segment (lines 944-951): skipped
when the category list is empty or its joined string is empty. -/
def commentPart (tags : Dict) (kp : String × String) : Except PyErr (Option String) :=
  let ts := ensure_list (pyDictGet tags kp.1)
  if ts.isEmpty then .ok none
  else do
    let items ← capItems (ts.filter truthy)
    let tagString := joinSep ", " items
    pure (if tagString ≠ "" then some (kp.2 ++ ": " ++ tagString) else none)

/-- Fold the four comment segments in order. -/
def commentParts (tags : Dict) : List (String × String) → Except PyErr (List String)
  | [] => .ok []
  | kp :: r => do
    let p ← commentPart tags kp
    let rest ← commentParts tags r
    pure (match p with | some s => s :: rest | none => rest)

/-- The track-independent rendering data computed from the trimmed tags:
the trimmed dict, the joined genre string, and the comment segments
(including the optional leading `E: NN`). -/
structure Rendered where
  tags : Dict
  genreJoined : String
  parts : List String

/-- The fallible rendering computations of lines 910-952: trim the
blueprint to the user config, join `primary_genre + sub_genre` (truthy
entries only), and format the comment segments. Every step here reads
only the blueprint and config, not the track. -/
def render_strings (cfg bp : Dict) : Except PyErr Rendered := do
  let tags ← apply_user_config_to_tags bp cfg
  let primary := ensure_list (pyDictGet tags "primary_genre")
  let sub := ensure_list (pyDictGet tags "sub_genre")
  let genreJoined := joinSep ", " (← strJoinList ((primary ++ sub).filter truthy))
  let energy := pyDictGet tags "energy_level"
  let parts0 : List String :=
    if jsonIsInt energy then ["E: " ++ zfill2 (pyIntStr energy)] else []
  let rest ← commentParts tags tagOrderAndPrefixes
  pure ⟨tags, genreJoined, parts0 ++ rest⟩

/-- Write the rendered data onto a track (lines 915-996): clear the old AI
tags, set the genre (retaining the previous value when the join is
empty), append the wrapped comment block, assign or delete colour and
grouping unless the sentinel colour is present, and set the rating
unconditionally. -/
def applyToTrack (rs : Rendered) (tr0 : Track) : Track :=
  let tr := clear_ai_tags tr0
  let tr := { tr with
    Genre := some (if rs.genreJoined ≠ "" then rs.genreJoined else tr.Genre.getD "") }
  let content := joinSep " / " rs.parts
  let existing := pyStrip (tr.Comments.getD "")
  let newc := if content ≠ "" then "/* " ++ content ++ " */" else ""
  let tr := { tr with Comments := some (pyStrip (existing ++ " " ++ newc)) }
  let energy := pyDictGet rs.tags "energy_level"
  let tr :=
    if tr.Colour ≠ some "0xFF0000" then
      match energyColour energy with
      | some hn => { tr with Colour := some hn.1, Grouping := some hn.2 }
      | none => { tr with Colour := none, Grouping := none }
    else tr
  { tr with Rating := some (toString (track_rating energy)) }

/-- Python config.get("level") == "Clear". -/
def levelIsClear (cfg : Dict) : Bool :=
  match dictGet cfg "level" with
  | some (.str s) => s == "Clear"
  | _ => false

/-- The observable outcome of processing one track: the updated track
element, the updated cache, the number of classifier invocations made for
this track, and the tags dict passed to `insert_track_data` (`none` for
the Python `None`). -/
structure StepResult where
  track : Track
  cache : Cache
  llmCalls : Nat
  persisted : Option Dict

/-- The identity key used by the cache. -/
def trackKey (tr : Track) : CacheKey := (tr.Name, tr.Artist)

/-- One iteration of the track loop of `process_library_task`
(src/app.py lines 857-1023). `clf` is the blueprint the classifier call
call_llm_for_tags(track_data, MASTER_BLUEPRINT_CONFIG, mode="full")
returns when it is reached (the network interaction itself is the subject
of `call_llm_for_tags` above). In Clear mode the track is cleared and
persisted without tags. Otherwise: cache check; a falsy (absent or empty)
stored blueprint triggers the classifier; a blueprint with a falsy
`primary_genre` skips the update and persists the track without tags; a
valid blueprint is rendered onto the track and persisted in full. -/
def process_track (cfg : Dict) (cache : Cache) (clf : Dict) (tr : Track) :
    Except PyErr StepResult :=
  if levelIsClear cfg then
    .ok ⟨clear_ai_tags tr, insertTags cache (trackKey tr) none, 0, none⟩
  else
    let cached := get_track_blueprint cache (trackKey tr)
    let hit : Bool := match cached with | some b => !b.isEmpty | none => false
    let bp : Dict := match cached with | some b => if b.isEmpty then clf else b | none => clf
    let calls : Nat := if hit then 0 else 1
    if bp.isEmpty || !truthy (pyDictGet bp "primary_genre") then
      .ok ⟨tr, insertTags cache (trackKey tr) none, calls, none⟩
    else do
      let rs ← render_strings cfg bp
      .ok ⟨applyToTrack rs tr, insertTags cache (trackKey tr) (some bp), calls, some bp⟩

-- ---------------------------------------------------------------------------
-- Genre bucketizer stage 2: get_genre_map_from_ai (src/app.py 560-650)
-- and the R&B override of split_xml_by_genre (lines 734-735).
-- ---------------------------------------------------------------------------

/-- The lowered-key copy `ai_map_lower` of a response batch (line 625):
a dict comprehension, later duplicates overwriting earlier ones. -/
def lowerDict (kvs : Dict) : Dict :=
  kvs.foldl (fun a kv => dictSet a (pyLower kv.1) kv.2) []

/-- `ai_map_lower.get(g.lower(), "Miscellaneous")` (line 629): the
case-insensitive lookup of one input genre in a response batch. -/
def lowerLookup (kvs : Dict) (g : String) : Json :=
  (dictGet (lowerDict kvs) (pyLower g)).getD (.str "Miscellaneous")

/-- The retry loop of one batch (lines 605-643): a transport error sleeps
and retries (delays are irrelevant to the claims in scope and not
tracked); falsy content falls through to the next attempt; undecodable
content breaks out with no result; a decoded JSON object breaks out with
the batch map; decoded non-object content raises at `.items()`.
`.ok none` is the no-result outcome (fallthrough to the Miscellaneous
fallback); fuel exhaustion is the max-retries outcome. -/
def batchLoop (oracle : Nat → Attempt) : Nat → Nat → Except PyErr (Option Dict)
  | _, 0 => .ok none
  | i, fuel + 1 =>
    match oracle i with
    | .transport => batchLoop oracle (i + 1) fuel
    | .http env parsed =>
      match extractContent env with
      | .error e => .error e
      | .ok content =>
        if truthy content then
          match content, parsed with
          | .str _, none => .ok none
          | .str _, some (.obj kvs) => .ok (some kvs)
          | .str _, some _ => .error .attributeError
          | _, _ => .error .typeError
        else batchLoop oracle (i + 1) fuel

/-- The per-batch fallback loop (lines 645-647): any genre still missing
from the map is assigned "Miscellaneous". -/
def fallbackFold (acc : Dict) (batch : List String) : Dict :=
  batch.foldl
    (fun a g => if dictMember a g then a else dictSet a g (.str "Miscellaneous")) acc

/-- The batch loop of `get_genre_map_from_ai` (lines 574-647), fueled for
structural recursion; `fuel` at least the number of genres always
suffices since every round consumes at least one genre. `oracle bi` is
the attempt oracle of batch number `bi`. -/
def gmLoop (oracle : Nat → Nat → Attempt) :
    Nat → Nat → List String → Dict → Except PyErr Dict
  | 0, _, _, acc => .ok acc
  | _ + 1, _, [], acc => .ok acc
  | fuel + 1, bi, g :: rest, acc => do
    let batch := (g :: rest).take 10
    let net ← batchLoop (oracle bi) 0 5
    let acc1 :=
      match net with
      | some resp => dictUpdate acc (batch.map (fun x => (x, lowerLookup resp x)))
      | none => acc
    gmLoop oracle fuel (bi + 1) ((g :: rest).drop 10) (fallbackFold acc1 batch)

/-- `get_genre_map_from_ai` with the API key present (the keyless branch
maps everything to "Miscellaneous" and is outside the claims in scope). -/
def get_genre_map_from_ai (oracle : Nat → Nat → Attempt) (genre_list : List String) :
    Except PyErr Dict :=
  gmLoop oracle genre_list.length 0 genre_list []

/-- The fixed post-processing override of `split_xml_by_genre`
(lines 734-735): the key "R&B", when present, is reassigned to
"Hip Hop". -/
def rbOverride (m : Dict) : Dict :=
  if dictMember m "R&B" then dictSet m "R&B" (.str "Hip Hop") else m

/-- The per-genre verdict the batch loop is proved to realise: locate the
batch containing the genre and read off its outcome (the case-insensitive
response lookup on success, "Miscellaneous" on a failed or undecodable
batch). Defined by the same recursion scheme as `gmLoop`. -/
def gmVerdict (oracle : Nat → Nat → Attempt) :
    Nat → Nat → List String → String → Json
  | 0, _, _, _ => .str "Miscellaneous"
  | _ + 1, _, [], _ => .str "Miscellaneous"
  | fuel + 1, bi, g :: rest, x =>
    if x ∈ (g :: rest).take 10 then
      match batchLoop (oracle bi) 0 5 with
      | .ok (some resp) => lowerLookup resp x
      | _ => .str "Miscellaneous"
    else gmVerdict oracle fuel (bi + 1) ((g :: rest).drop 10) x

-- ---------------------------------------------------------------------------
-- Genre bucketizer stage 1: get_primary_genre (src/app.py 655-691).
-- ---------------------------------------------------------------------------

/-- `get_primary_genre`: parse the first comma/slash-delimited segment of
the existing genre string; when that is blank, call the classifier in
genre_only mode and take the first `primary_genre` entry when it is a
nonempty list, falling back to "Miscellaneous" for a falsy entry or an
unusable response. -/
def aiPrimary (res : Except PyErr Dict) : Except PyErr Json :=
  match res with
  | .error e => .error e
  | .ok ai =>
    if ai.isEmpty then .ok (.str "Miscellaneous")
    else
      match dictGet ai "primary_genre" with
      | some (.arr (e :: _)) => .ok (if truthy e then e else .str "Miscellaneous")
      | _ => .ok (.str "Miscellaneous")

/-- The classifier-fallback path of `get_primary_genre`: the checks
`ai_response and isinstance(ai_response, dict) and
isinstance(ai_response.get(..), list) and ai_response[..]` followed by
the truthiness test of the first entry. -/
def get_primary_genre (oracle : Nat → Attempt) (tr : Track) : Except PyErr Json :=
  let genre_str := pyStrip (tr.Genre.getD "")
  let parsed := pyStrip (firstSeg genre_str)
  if genre_str != "" && parsed != "" then .ok (.str parsed)
  else aiPrimary (call_llm_for_tags .genreOnly oracle).1

-- ---------------------------------------------------------------------------
-- Association list lemmas.
-- ---------------------------------------------------------------------------

theorem dictGet_dictSet_self (d : Dict) (k : String) (v : Json) :
    dictGet (dictSet d k v) k = some v := by
  induction d with
  | nil => simp [dictGet, dictSet]
  | cons kv r ih =>
    by_cases h : kv.1 = k
    · simp [dictGet, dictSet, h]
    · simp [dictGet, dictSet, h, ih]

theorem dictGet_dictSet_ne (d : Dict) (k key : String) (v : Json) (h : k ≠ key) :
    dictGet (dictSet d k v) key = dictGet d key := by
  have h' : key ≠ k := Ne.symm h
  induction d with
  | nil => simp [dictGet, dictSet, h, h']
  | cons kv r ih =>
    by_cases h1 : kv.1 = k
    · simp [dictGet, dictSet, h1, h, h']
    · by_cases h2 : kv.1 = key
      · simp [dictGet, dictSet, h1, h2, h, h']
      · simp [dictGet, dictSet, h1, h2, ih]

-- ---------------------------------------------------------------------------
-- Classifier client lemmas.
-- ---------------------------------------------------------------------------

/-- A transport run of length `k` accumulates the exponential delays and
leaves the loop at attempt `i + k`. -/
theorem llmLoop_transport_run (mode : Mode) (oracle : Nat → Attempt) (k : Nat) :
    ∀ i fuel sleeps, k ≤ fuel → (∀ t, t < k → oracle (i + t) = .transport) →
      llmLoop mode oracle i fuel sleeps =
        llmLoop mode oracle (i + k) (fuel - k)
          (sleeps ++ (List.range k).map (fun t => 2 * 2 ^ (i + t))) := by
  induction k with
  | zero => intro i fuel sleeps _ _; simp
  | succ k ih =>
    intro i fuel sleeps hk htr
    obtain ⟨fuel, rfl⟩ : ∃ m, fuel = m + 1 := ⟨fuel - 1, by omega⟩
    have h0 : oracle i = .transport := by simpa using htr 0 (by omega)
    have step : llmLoop mode oracle i (fuel + 1) sleeps =
        llmLoop mode oracle (i + 1) fuel (sleeps ++ [2 * 2 ^ i]) := by
      simp [llmLoop, h0]
    have htr1 : ∀ t, t < k → oracle (i + 1 + t) = .transport := by
      intro t ht
      have := htr (t + 1) (by omega)
      have he : i + (t + 1) = i + 1 + t := by omega
      rw [he] at this
      exact this
    rw [step, ih (i + 1) fuel (sleeps ++ [2 * 2 ^ i]) (by omega) htr1]
    have hlist : (sleeps ++ [2 * 2 ^ i]) ++ (List.range k).map (fun t => (2 : Int) * 2 ^ (i + 1 + t))
        = sleeps ++ (List.range (k + 1)).map (fun t => (2 : Int) * 2 ^ (i + t)) := by
      rw [List.append_assoc]
      congr 1
      rw [List.range_succ_eq_map, List.map_cons, List.map_map, List.singleton_append]
      congr 1
      apply List.map_congr_left
      intro t _
      simp only [Function.comp_apply]
      have he : i + 1 + t = i + Nat.succ t := by omega
      rw [he]
    rw [hlist]
    have h1 : i + 1 + k = i + (k + 1) := by omega
    have h2 : fuel - k = fuel + 1 - (k + 1) := by omega
    rw [h1, h2]

/-- Attempts after which the client cannot raise: either a retried
transport error, or a successful request whose envelope extraction
succeeds and whose truthy content is a string decoding to a JSON object
(or failing to decode). -/
def wfAttempt : Attempt → Bool
  | .transport => true
  | .http env parsed =>
    match extractContent env with
    | .error _ => false
    | .ok content =>
      if truthy content then
        match content, parsed with
        | .str _, none => true
        | .str _, some (.obj _) => true
        | _, _ => false
      else true

theorem llmLoop_wf_isOk (mode : Mode) (oracle : Nat → Attempt)
    (hwf : ∀ i, wfAttempt (oracle i)) :
    ∀ fuel i sleeps, (llmLoop mode oracle i fuel sleeps).1.isOk := by
  intro fuel
  induction fuel with
  | zero => intro i sleeps; simp [llmLoop, Except.isOk, Except.toBool]
  | succ fuel ih =>
    intro i sleeps
    cases horacle : oracle i with
    | transport => simp [llmLoop, horacle, ih]
    | http env parsed =>
      have h : wfAttempt (.http env parsed) = true := horacle ▸ hwf i
      simp only [wfAttempt] at h
      cases hext : extractContent env with
      | error e => rw [hext] at h; simp at h
      | ok content =>
        rw [hext] at h
        by_cases htru : truthy content
        · simp only [htru, if_true] at h
          cases content with
          | str s =>
            cases parsed with
            | none => simp [llmLoop, horacle, hext, htru, Except.isOk, Except.toBool]
            | some j =>
              cases j with
              | obj kvs => simp [llmLoop, horacle, hext, htru, Except.isOk, Except.toBool]
              | null => simp at h
              | bool b => simp at h
              | num n => simp at h
              | str s2 => simp at h
              | arr xs => simp at h
          | null => simp [truthy] at htru
          | bool b => simp at h
          | num n => simp at h
          | arr xs => simp at h
          | obj kvs => simp at h
        · simp [llmLoop, horacle, hext, htru, ih]

/-- Shape classifier for the raw `primary_genre` of a decoded response:
0 = scalar string, 1 = list, 2 = anything else (absent included). -/
def pgShape (j : Dict) : Nat :=
  match dictGet j "primary_genre" with
  | some (.str _) => 0
  | some (.arr _) => 1
  | _ => 2

/-- The sub_genre step never touches `primary_genre`. -/
theorem normalizeSub_primary (mode : Mode) (j : Dict) :
    dictGet (normalizeSub mode j) "primary_genre" = dictGet j "primary_genre" := by
  have hne : "sub_genre" ≠ "primary_genre" := by decide
  unfold normalizeSub
  split
  · exact dictGet_dictSet_ne _ _ _ _ hne
  · split
    · rfl
    · exact dictGet_dictSet_ne _ _ _ _ hne
    · rfl

/-- Normalisation always leaves `primary_genre` present and list-valued. -/
theorem normalize_primary_isArr (mode : Mode) (j : Dict) :
    ∃ xs, dictGet (normalize mode j) "primary_genre" = some (.arr xs) := by
  unfold normalize
  rw [normalizeSub_primary]
  unfold normalizePG
  cases hpg : dictGet j "primary_genre" with
  | none => exact ⟨_, dictGet_dictSet_self j _ _⟩
  | some v =>
    cases v with
    | str s => exact ⟨_, dictGet_dictSet_self j _ _⟩
    | arr xs => exact ⟨xs, hpg⟩
    | null => exact ⟨_, dictGet_dictSet_self j _ _⟩
    | bool b => exact ⟨_, dictGet_dictSet_self j _ _⟩
    | num n => exact ⟨_, dictGet_dictSet_self j _ _⟩
    | obj kvs => exact ⟨_, dictGet_dictSet_self j _ _⟩

/-- The fallback blueprint has a list-valued `primary_genre`. -/
theorem fallback_primary_isArr (mode : Mode) :
    dictGet (fallback mode) "primary_genre" = some (.arr [.str "Miscellaneous"]) := by
  cases mode <;> rfl

/-- Every successful client result has a list-valued `primary_genre`. -/
theorem llmLoop_ok_primary (mode : Mode) (oracle : Nat → Attempt) :
    ∀ fuel i sleeps d sl, llmLoop mode oracle i fuel sleeps = (.ok d, sl) →
      ∃ xs, dictGet d "primary_genre" = some (.arr xs) := by
  intro fuel
  induction fuel with
  | zero =>
    intro i sleeps d sl h
    simp only [llmLoop, Prod.mk.injEq] at h
    obtain ⟨h1, _⟩ := h
    cases h1
    exact ⟨_, fallback_primary_isArr mode⟩
  | succ fuel ih =>
    intro i sleeps d sl h
    cases horacle : oracle i with
    | transport =>
      rw [show llmLoop mode oracle i (fuel + 1) sleeps =
        llmLoop mode oracle (i + 1) fuel (sleeps ++ [2 * 2 ^ i]) by simp [llmLoop, horacle]] at h
      exact ih _ _ _ _ h
    | http env parsed =>
      cases hext : extractContent env with
      | error e => simp [llmLoop, horacle, hext] at h
      | ok content =>
        by_cases htru : truthy content
        · cases content with
          | str s =>
            cases parsed with
            | none =>
              simp only [llmLoop, horacle, hext, htru, if_true, Prod.mk.injEq] at h
              obtain ⟨h1, _⟩ := h
              cases h1
              exact ⟨_, fallback_primary_isArr mode⟩
            | some j =>
              cases j with
              | obj kvs =>
                simp only [llmLoop, horacle, hext, htru, if_true, Prod.mk.injEq] at h
                obtain ⟨h1, _⟩ := h
                cases h1
                exact normalize_primary_isArr mode kvs
              | null => simp [llmLoop, horacle, hext, htru] at h
              | bool b => simp [llmLoop, horacle, hext, htru] at h
              | num n => simp [llmLoop, horacle, hext, htru] at h
              | str s2 => simp [llmLoop, horacle, hext, htru] at h
              | arr xs => simp [llmLoop, horacle, hext, htru] at h
          | null => simp [truthy] at htru
          | bool b => simp [llmLoop, horacle, hext, htru] at h
          | num n => simp [llmLoop, horacle, hext, htru] at h
          | arr xs => simp [llmLoop, horacle, hext, htru] at h
          | obj kvs => simp [llmLoop, horacle, hext, htru] at h
        · rw [show llmLoop mode oracle i (fuel + 1) sleeps =
            llmLoop mode oracle (i + 1) fuel sleeps by simp [llmLoop, horacle, hext, htru]] at h
          exact ih _ _ _ _ h

/-- The primary_genre step on a scalar string wraps it in a singleton. -/
theorem normalizePG_scalar (j : Dict) (s : String)
    (h : dictGet j "primary_genre" = some (.str s)) :
    dictGet (normalizePG j) "primary_genre" = some (.arr [.str s]) := by
  unfold normalizePG
  rw [h]
  exact dictGet_dictSet_self j _ _

/-- The primary_genre step keeps a list unchanged. -/
theorem normalizePG_list (j : Dict) (xs : List Json)
    (h : dictGet j "primary_genre" = some (.arr xs)) :
    dictGet (normalizePG j) "primary_genre" = some (.arr xs) := by
  unfold normalizePG
  rw [h]
  exact h

/-- The primary_genre step defaults an absent or non-list value. -/
theorem normalizePG_other (j : Dict) (h : pgShape j = 2) :
    dictGet (normalizePG j) "primary_genre" = some (.arr [.str "Miscellaneous"]) := by
  unfold pgShape at h
  unfold normalizePG
  cases hpg : dictGet j "primary_genre" with
  | none => exact dictGet_dictSet_self j _ _
  | some v =>
    cases v with
    | str s => rw [hpg] at h; simp at h
    | arr xs => rw [hpg] at h; simp at h
    | null => exact dictGet_dictSet_self j _ _
    | bool b => exact dictGet_dictSet_self j _ _
    | num n => exact dictGet_dictSet_self j _ _
    | obj kvs => exact dictGet_dictSet_self j _ _

-- ---------------------------------------------------------------------------
-- Claim C2: error handling of the classifier client.
-- ---------------------------------------------------------------------------

/-- A response envelope whose `choices` key holds an empty list. -/
def envEmptyChoices : Json := .obj [("choices", .arr [])]

/-- An oracle answering every attempt with that envelope. -/
def oracleC2bad : Nat → Attempt := fun _ => .http envEmptyChoices none

/-- C2 (counterexample): the claim asserts that no exception propagates
out of `call_llm_for_tags` on any path. A successful HTTP response whose
decoded body is the JSON object with an empty `choices` list makes
`response.json().get("choices", [..])[0]` raise an uncaught IndexError,
which propagates out of the function. -/
theorem C2_counterexample :
    (call_llm_for_tags .full oracleC2bad).1 = .error .indexError := rfl

/-- C2 (amended): for every call to the classifier client, a malformed
(non-JSON) content string is not retried and immediately yields the
fallback blueprint with no further sleeps; exhausting all 5 transport
retries yields the same fallback after sleeps of 2, 4, 8, 16 and 32
seconds; and no exception propagates provided every successful response
has a well-formed envelope whose decodable content is a JSON object. -/
theorem C2_amended (mode : Mode) (oracle : Nat → Attempt) :
    ((∀ i, oracle i = .transport) →
        call_llm_for_tags mode oracle = (.ok (fallback mode), [2, 4, 8, 16, 32]))
    ∧ (∀ k env s, k < 5 → (∀ t, t < k → oracle t = .transport) →
        oracle k = .http env none → extractContent env = .ok (.str s) → s ≠ "" →
        call_llm_for_tags mode oracle =
          (.ok (fallback mode), (List.range k).map (fun t => 2 * 2 ^ t)))
    ∧ ((∀ i, wfAttempt (oracle i)) → (call_llm_for_tags mode oracle).1.isOk) := by
  refine ⟨?_, ?_, ?_⟩
  · intro htr
    unfold call_llm_for_tags
    rw [llmLoop_transport_run mode oracle 5 0 5 [] (le_refl 5) (fun t _ => htr (0 + t))]
    rfl
  · intro k env s hk htr hor hext hs
    unfold call_llm_for_tags
    rw [llmLoop_transport_run mode oracle k 0 5 [] (by omega)
      (fun t ht => by simpa using htr t ht)]
    obtain ⟨m, hm⟩ : ∃ m, 5 - k = m + 1 := ⟨4 - k, by omega⟩
    rw [hm, Nat.zero_add]
    have hsb : (s != "") = true := bne_iff_ne.mpr hs
    have hstep : llmLoop mode oracle k (m + 1)
        ([] ++ (List.range k).map (fun t => 2 * 2 ^ (0 + t)))
        = (.ok (fallback mode), [] ++ (List.range k).map (fun t => 2 * 2 ^ (0 + t))) := by
      simp [llmLoop, hor, hext, truthy, hsb]
    rw [hstep]
    simp
  · intro hwf
    exact llmLoop_wf_isOk mode oracle hwf 5 0 []

/-- C2 (witness): the all-transport-errors path at mode `full`. -/
theorem C2_witness :
    call_llm_for_tags .full (fun _ => .transport) = (.ok (fallback .full), [2, 4, 8, 16, 32]) :=
  (C2_amended .full (fun _ => .transport)).1 (fun _ => rfl)

-- ---------------------------------------------------------------------------
-- Claim C5: shape of the primary_genre field of returned blueprints.
-- ---------------------------------------------------------------------------

/-- A well-formed envelope whose content string is "x". -/
def envContentX : Json :=
  .obj [("choices", .arr [.obj [("message", .obj [("content", .str "x")])]])]

/-- An oracle whose response content decodes to a blueprint with an empty
`primary_genre` list. -/
def oracleC5 : Nat → Attempt :=
  fun _ => .http envContentX (some (.obj [("primary_genre", .arr [])]))

/-- Does `primary_genre` hold a list of length exactly one containing a
non-empty string, as the claim asserts of every returned blueprint? -/
def pgLen1NonEmptyStr (d : Dict) : Bool :=
  match dictGet d "primary_genre" with
  | some (.arr [.str s]) => s != ""
  | _ => false

/-- C5 (counterexample): a response whose `primary_genre` arrives as the
empty list is kept unchanged by the normalisation (a list is never
touched), so the client returns a blueprint whose `primary_genre` has
length 0, not 1. -/
theorem C5_counterexample :
    (call_llm_for_tags .full oracleC5).1 = .ok [("primary_genre", Json.arr [])]
    ∧ (call_llm_for_tags .full oracleC5).1.toOption.map pgLen1NonEmptyStr = some false :=
  ⟨rfl, rfl⟩

/-- C5 (amended): every blueprint returned by the classifier client has a
`primary_genre` field that is present and list-valued: a scalar string in
the response is wrapped in a singleton list, an absent or non-list value
defaults to the singleton `["Miscellaneous"]`, and a list arriving in the
response is kept exactly as it is (so it may be empty, longer than one,
or contain non-string entries). -/
theorem C5_amended (mode : Mode) (oracle : Nat → Attempt) :
    (∀ d sl, call_llm_for_tags mode oracle = (.ok d, sl) →
        ∃ xs, dictGet d "primary_genre" = some (.arr xs))
    ∧ (∀ j s, dictGet j "primary_genre" = some (.str s) →
        dictGet (normalize mode j) "primary_genre" = some (.arr [.str s]))
    ∧ (∀ j xs, dictGet j "primary_genre" = some (.arr xs) →
        dictGet (normalize mode j) "primary_genre" = some (.arr xs))
    ∧ (∀ j, pgShape j = 2 →
        dictGet (normalize mode j) "primary_genre" = some (.arr [.str "Miscellaneous"])) := by
  refine ⟨?_, ?_, ?_, ?_⟩
  · intro d sl h
    exact llmLoop_ok_primary mode oracle 5 0 [] d sl h
  · intro j s h
    unfold normalize
    rw [normalizeSub_primary]
    exact normalizePG_scalar j s h
  · intro j xs h
    unfold normalize
    rw [normalizeSub_primary]
    exact normalizePG_list j xs h
  · intro j h
    unfold normalize
    rw [normalizeSub_primary]
    exact normalizePG_other j h

/-- A response blueprint with a scalar primary_genre. -/
def jW5 : Dict := [("primary_genre", .str "House")]

/-- C5 (witness): the scalar case at a concrete response. -/
theorem C5_witness :
    dictGet (normalize .full jW5) "primary_genre" = some (.arr [.str "House"]) :=
  (C5_amended .full (fun _ => .transport)).2.1 jW5 "House" rfl

-- ---------------------------------------------------------------------------
-- Claim C3: the energy-to-rating/colour staircase.
-- ---------------------------------------------------------------------------

/-- C3 (counterexample): the claim asserts that a null or non-numeric
energy level yields the colour Aqua, with rating 51 for non-numeric
non-null levels. The code instead produces no colour at all for a null
level (the Colour and Grouping attributes are deleted), and rating 0 for
every non-numeric level, null or not. -/
theorem C3_counterexample :
    energyColour .null = none
    ∧ energyColour .null ≠ some ("0x25FDE9", "Aqua")
    ∧ track_rating (.str "unknown") = 0
    ∧ track_rating (.str "unknown") ≠ 51 :=
  ⟨rfl, by decide, rfl, by decide⟩

/-- Decidable non-increase of an integer sequence. -/
def nonIncreasing : List Int → Bool
  | [] => true
  | [_] => true
  | a :: b :: r => decide (b ≤ a) && nonIncreasing (b :: r)

set_option linter.unreachableTactic false in
set_option linter.unusedTactic false in
/-- C3 (amended): the rating/colour mapping follows the staircase
255/Pink for level at least 9, 204/Orange at 8, 153/Yellow at 6 and 7,
102/Green at 4 and 5, and 51/Aqua for every integer level at most 3;
a null or non-numeric level gets rating 0 and no colour at all; and over
the level sequence 10 down to 1 the ratings are non-increasing and match
the fixed table. -/
theorem C3_amended :
    (∀ n : Int, 9 ≤ n →
        track_rating (.num n) = 255 ∧ energyColour (.num n) = some ("0xFF007F", "Pink"))
    ∧ (track_rating (.num 8) = 204 ∧ energyColour (.num 8) = some ("0xFFA500", "Orange"))
    ∧ (∀ n : Int, 6 ≤ n → n ≤ 7 →
        track_rating (.num n) = 153 ∧ energyColour (.num n) = some ("0xFFFF00", "Yellow"))
    ∧ (∀ n : Int, 4 ≤ n → n ≤ 5 →
        track_rating (.num n) = 102 ∧ energyColour (.num n) = some ("0x00FF00", "Green"))
    ∧ (∀ n : Int, n ≤ 3 →
        track_rating (.num n) = 51 ∧ energyColour (.num n) = some ("0x25FDE9", "Aqua"))
    ∧ (track_rating .null = 0 ∧ energyColour .null = none)
    ∧ (∀ s : String, track_rating (.str s) = 0 ∧ energyColour (.str s) = none)
    ∧ ([10, 9, 8, 7, 6, 5, 4, 3, 2, 1].map (fun n : Int => track_rating (.num n))
        = [255, 255, 204, 153, 153, 102, 102, 51, 51, 51])
    ∧ nonIncreasing
        ([10, 9, 8, 7, 6, 5, 4, 3, 2, 1].map (fun n : Int => track_rating (.num n))) = true := by
  refine ⟨?_, ⟨by decide, by decide⟩, ?_, ?_, ?_, ⟨rfl, rfl⟩, fun s => ⟨rfl, rfl⟩,
    by decide, by decide⟩
  · intro n h
    refine ⟨?_, ?_⟩ <;>
      · simp only [track_rating, convert_energy_to_rating, energyColour, jsonIntVal]
        split_ifs <;> first | rfl | omega
  · intro n h1 h2
    refine ⟨?_, ?_⟩ <;>
      · simp only [track_rating, convert_energy_to_rating, energyColour, jsonIntVal]
        split_ifs <;> first | rfl | omega
  · intro n h1 h2
    refine ⟨?_, ?_⟩ <;>
      · simp only [track_rating, convert_energy_to_rating, energyColour, jsonIntVal]
        split_ifs <;> first | rfl | omega
  · intro n h
    refine ⟨?_, ?_⟩ <;>
      · simp only [track_rating, convert_energy_to_rating, energyColour, jsonIntVal]
        split_ifs <;> first | rfl | omega

/-- C3 (witness): the top step at the concrete level 9. -/
theorem C3_witness :
    track_rating (.num 9) = 255 ∧ energyColour (.num 9) = some ("0xFF007F", "Pink") :=
  C3_amended.1 9 (by norm_num)



-- ---------------------------------------------------------------------------
-- Claim C6: the config renderer trims to the configured caps.
-- ---------------------------------------------------------------------------

/-- The transformation applied to one dict entry by the trimming loop
when the key carries the integer cap `n`. -/
def trimVal (n : Int) : Option Json → Option Json
  | some (.arr xs) => some (.arr (pySliceTake xs n))
  | other => other

/-- The loop body reads only the trimmed key of the config. -/
theorem trimStep_congr (c1 c2 r : Dict) (k : String)
    (h : dictGet c1 k = dictGet c2 k) : trimStep c1 r k = trimStep c2 r k := by
  unfold trimStep
  rw [h]

/-- The loop body succeeds on an integer cap. -/
theorem trimStep_ok (cfg r : Dict) (k : String) (n : Int)
    (h : dictGet cfg k = some (.num n)) : ∃ r2, trimStep cfg r k = .ok r2 := by
  unfold trimStep
  rw [h]
  cases hrk : dictGet r k with
  | none => exact ⟨r, rfl⟩
  | some v => cases v <;> exact ⟨_, rfl⟩

/-- The loop body leaves every other key unchanged. -/
theorem trimStep_get_ne (cfg r r2 : Dict) (k key : String) (hk : k ≠ key)
    (h : trimStep cfg r k = .ok r2) : dictGet r2 key = dictGet r key := by
  unfold trimStep at h
  split at h
  · split at h
    · cases h with
      | refl => exact dictGet_dictSet_ne r k key _ hk
    · exact absurd h (by simp)
  · cases h with
    | refl => rfl

/-- The loop body realises `trimVal` at the trimmed key. -/
theorem trimStep_get_self (cfg r r2 : Dict) (k : String) (n : Int)
    (hck : dictGet cfg k = some (.num n))
    (h : trimStep cfg r k = .ok r2) : dictGet r2 k = trimVal n (dictGet r k) := by
  unfold trimStep at h
  cases hrk : dictGet r k with
  | none =>
    rw [hrk] at h
    cases h with
    | refl => rw [hrk]; rfl
  | some v =>
    rw [hrk, hck] at h
    cases v with
    | arr xs =>
      have h2 : Except.ok (ε := PyErr) (dictSet r k (.arr (pySliceTake xs n))) = .ok r2 := h
      cases h2 with
      | refl => rw [dictGet_dictSet_self]; rfl
    | null => cases h with | refl => rw [hrk]; rfl
    | bool b => cases h with | refl => rw [hrk]; rfl
    | num m => cases h with | refl => rw [hrk]; rfl
    | str s2 => cases h with | refl => rw [hrk]; rfl
    | obj kvs => cases h with | refl => rw [hrk]; rfl

/-- The trimming loop reads only the trimmable keys of the config. -/
theorem trimFold_congr (c1 c2 : Dict) :
    ∀ (ks : List String) (r : Dict), (∀ k ∈ ks, dictGet c1 k = dictGet c2 k) →
      trimFold c1 ks r = trimFold c2 ks r := by
  intro ks
  induction ks with
  | nil => intro r _; rfl
  | cons k ks ih =>
    intro r hks
    have hrest : ∀ k2 ∈ ks, dictGet c1 k2 = dictGet c2 k2 :=
      fun k2 hm => hks k2 (List.mem_cons_of_mem k hm)
    unfold trimFold
    rw [trimStep_congr c1 c2 r k (hks k (List.mem_cons_self k ks))]
    cases hstep : trimStep c2 r k with
    | ok r2 => exact ih r2 hrest
    | error e => rfl

/-- The trimming loop succeeds when every trimmable key carries an
integer cap. -/
theorem trimFold_ok (cfg : Dict) :
    ∀ (ks : List String) (r : Dict),
      (∀ k ∈ ks, ∃ n : Int, dictGet cfg k = some (.num n)) →
      ∃ d, trimFold cfg ks r = .ok d := by
  intro ks
  induction ks with
  | nil => intro r _; exact ⟨r, rfl⟩
  | cons k ks ih =>
    intro r hks
    obtain ⟨n, hn⟩ := hks k (List.mem_cons_self k ks)
    obtain ⟨r2, hr2⟩ := trimStep_ok cfg r k n hn
    obtain ⟨d, hd⟩ := ih r2 (fun k2 hm => hks k2 (List.mem_cons_of_mem k hm))
    refine ⟨d, ?_⟩
    unfold trimFold
    rw [hr2]
    exact hd

/-- Keys outside the processed list are untouched by the trimming loop. -/
theorem trimFold_get_notmem (cfg : Dict) :
    ∀ (ks : List String) (r d : Dict) (key : String), key ∉ ks →
      trimFold cfg ks r = .ok d → dictGet d key = dictGet r key := by
  intro ks
  induction ks with
  | nil =>
    intro r d key _ h
    simp only [trimFold, Except.ok.injEq] at h
    rw [h]
  | cons k ks ih =>
    intro r d key hk h
    have hkk : k ≠ key := fun he => hk (he ▸ List.mem_cons_self k ks)
    have hks : key ∉ ks := fun hm => hk (List.mem_cons_of_mem k hm)
    unfold trimFold at h
    cases hstep : trimStep cfg r k with
    | ok r2 =>
      rw [hstep] at h
      rw [ih r2 d key hks h]
      exact trimStep_get_ne cfg r r2 k key hkk hstep
    | error e => rw [hstep] at h; exact absurd h (by simp)

/-- A processed key with an integer cap ends up trimmed by the Python
slice (and non-list values are untouched). -/
theorem trimFold_get_mem (cfg : Dict) :
    ∀ (ks : List String), ks.Nodup →
      ∀ (r d : Dict) (k : String) (n : Int), k ∈ ks →
        dictGet cfg k = some (.num n) →
        trimFold cfg ks r = .ok d →
        dictGet d k = trimVal n (dictGet r k) := by
  intro ks
  induction ks with
  | nil => intro _ r d k n hm; exact absurd hm (List.not_mem_nil k)
  | cons k0 ks ih =>
    intro hnd r d k n hm hck h
    have hnd2 : ks.Nodup := (List.nodup_cons.mp hnd).2
    unfold trimFold at h
    rcases List.mem_cons.mp hm with he | hm2
    · subst he
      have hnot : k ∉ ks := (List.nodup_cons.mp hnd).1
      cases hstep : trimStep cfg r k with
      | ok r2 =>
        rw [hstep] at h
        rw [trimFold_get_notmem cfg ks r2 d k hnot h]
        exact trimStep_get_self cfg r r2 k n hck hstep
      | error e => rw [hstep] at h; exact absurd h (by simp)
    · have hkk : k0 ≠ k := fun he => (List.nodup_cons.mp hnd).1 (he ▸ hm2)
      cases hstep : trimStep cfg r k0 with
      | ok r2 =>
        rw [hstep] at h
        rw [ih hnd2 r2 d k n hm2 hck h]
        rw [trimStep_get_ne cfg r r2 k0 k hkk hstep]
      | error e => rw [hstep] at h; exact absurd h (by simp)

/-- A blueprint whose `sub_genre` has three entries. -/
def bpC6 : Dict :=
  [("primary_genre", .arr [.str "House"]),
   ("sub_genre", .arr [.str "a", .str "b", .str "c"])]

/-- A detail configuration with the integer cap -1 on `sub_genre`. -/
def cfgC6 : Dict :=
  [("sub_genre", .num (-1)), ("components", .num 3), ("energy_vibe", .num 3),
   ("situation_environment", .num 3), ("time_period", .num 1)]

/-- Does the category value have length at most the cap? -/
def lenAtMost (cap : Int) : Option Json → Bool
  | some (.arr xs) => decide ((xs.length : Int) ≤ cap)
  | _ => false

/-- C6 (counterexample): the claim quantifies over every integer cap and
asserts the result is the prefix of the first cap entries, of length at
most the cap. With the integer cap -1 the Python slice keeps all but the
last entry: a three-entry `sub_genre` becomes the two-entry prefix, whose
length is not at most -1 (and "the first -1 entries" names no prefix). -/
theorem C6_counterexample :
    (apply_user_config_to_tags bpC6 cfgC6).toOption.map (fun d => dictGet d "sub_genre")
      = some (some (.arr [.str "a", .str "b"]))
    ∧ (apply_user_config_to_tags bpC6 cfgC6).toOption.map
        (fun d => lenAtMost (-1) (dictGet d "sub_genre")) = some false :=
  ⟨rfl, rfl⟩

/-- C6 (amended): when the detail configuration carries an integer cap
for each of the five trimmable categories, rendering succeeds and maps
each list-valued trimmable category to the Python slice `xs[:cap]` — for
a nonnegative cap the prefix of the first cap entries, hence of length at
most the cap and in the original order; a negative cap drops trailing
entries instead — while every key outside the five categories, in
particular `primary_genre` and `energy_level`, is left exactly as in the
blueprint. -/
theorem C6_amended (bp cfg : Dict)
    (hcaps : ∀ k ∈ trimKeys, ∃ n : Int, dictGet cfg k = some (.num n)) :
    ∃ d, apply_user_config_to_tags bp cfg = .ok d
      ∧ (∀ k n xs, k ∈ trimKeys → dictGet cfg k = some (.num n) →
          dictGet bp k = some (.arr xs) → dictGet d k = some (.arr (pySliceTake xs n)))
      ∧ (∀ k, k ∉ trimKeys → dictGet d k = dictGet bp k)
      ∧ dictGet d "primary_genre" = dictGet bp "primary_genre"
      ∧ dictGet d "energy_level" = dictGet bp "energy_level"
      ∧ (∀ (xs : List Json) (n : Int), 0 ≤ n →
          pySliceTake xs n = xs.take n.toNat ∧ ((pySliceTake xs n).length : Int) ≤ n) := by
  obtain ⟨d, hd⟩ := trimFold_ok cfg trimKeys bp hcaps
  have hnd : trimKeys.Nodup := by decide
  refine ⟨d, hd, ?_, ?_, ?_, ?_, ?_⟩
  · intro k n xs hm hck hbk
    have := trimFold_get_mem cfg trimKeys hnd bp d k n hm hck hd
    rw [hbk] at this
    exact this
  · intro k hk
    exact trimFold_get_notmem cfg trimKeys bp d k hk hd
  · exact trimFold_get_notmem cfg trimKeys bp d "primary_genre" (by decide) hd
  · exact trimFold_get_notmem cfg trimKeys bp d "energy_level" (by decide) hd
  · intro xs n hn
    have hneg : ¬(n < 0) := by omega
    constructor
    · simp [pySliceTake, hneg]
    · simp only [pySliceTake, hneg, if_false]
      have hlen : (xs.take n.toNat).length ≤ n.toNat := by
        rw [List.length_take]
        omega
      omega

/-- A blueprint whose `sub_genre` has four entries and a config capping
it at three. -/
def bpW6 : Dict :=
  [("primary_genre", .arr [.str "House"]), ("energy_level", .num 7),
   ("sub_genre", .arr [.str "a", .str "b", .str "c", .str "d"])]

/-- The master detail configuration of the source (caps 3/3/3/3/1). -/
def cfgW6 : Dict :=
  [("level", .str "Detailed"), ("sub_genre", .num 3), ("energy_vibe", .num 3),
   ("situation_environment", .num 3), ("components", .num 3), ("time_period", .num 1)]

/-- C6 (witness): trimming a four-entry `sub_genre` at cap 3 keeps the
first three entries and leaves `primary_genre` and `energy_level`
untouched. -/
theorem C6_witness :
    (apply_user_config_to_tags bpW6 cfgW6).toOption.map (fun d => dictGet d "sub_genre")
      = some (some (.arr [.str "a", .str "b", .str "c"]))
    ∧ (apply_user_config_to_tags bpW6 cfgW6).toOption.map (fun d => dictGet d "primary_genre")
      = some (some (.arr [.str "House"]))
    ∧ (apply_user_config_to_tags bpW6 cfgW6).toOption.map (fun d => dictGet d "energy_level")
      = some (some (.num 7)) := by
  obtain ⟨d, hd, hmem, hnot, hpg, hel, hsl⟩ := C6_amended bpW6 cfgW6
    (by intro k hk; fin_cases hk <;> exact ⟨_, rfl⟩)
  have hsub := hmem "sub_genre" 3 [.str "a", .str "b", .str "c", .str "d"]
    (by decide) rfl rfl
  rw [hd]
  refine ⟨?_, ?_, ?_⟩
  · show some (dictGet d "sub_genre") = some (some (.arr [.str "a", .str "b", .str "c"]))
    rw [hsub]
    rfl
  · show some (dictGet d "primary_genre") = some (some (.arr [.str "House"]))
    rw [hpg]
    rfl
  · show some (dictGet d "energy_level") = some (some (.num 7))
    rw [hel]
    rfl

-- ---------------------------------------------------------------------------
-- Cache lemmas.
-- ---------------------------------------------------------------------------

theorem lookupTags_append (cache : Cache) (key : CacheKey) (tags : Option Dict)
    (h : lookupTags cache key = none) :
    lookupTags (cache ++ [(key, tags)]) key = some tags := by
  induction cache with
  | nil => simp [lookupTags]
  | cons kv r ih =>
    by_cases hk : kv.1 = key
    · simp [lookupTags, hk] at h
    · rw [List.cons_append]
      simp only [lookupTags, hk, if_false]
      simp only [lookupTags, hk, if_false] at h
      exact ih h

theorem lookupTags_setTags_self (cache : Cache) (key : CacheKey) (tags : Option Dict)
    (v : Option Dict) (h : lookupTags cache key = some v) :
    lookupTags (setTags cache key tags) key = some tags := by
  induction cache with
  | nil => simp [lookupTags] at h
  | cons kv r ih =>
    by_cases hk : kv.1 = key
    · simp [setTags, lookupTags, hk]
    · simp only [lookupTags, hk, if_neg] at h
      simp only [setTags, hk, if_neg, lookupTags]
      exact ih h

/-- Persisting a blueprint makes a later cache read return it. -/
theorem get_insertTags_some (cache : Cache) (key : CacheKey) (d : Dict) :
    get_track_blueprint (insertTags cache key (some d)) key = some d := by
  unfold insertTags
  cases hl : lookupTags cache key with
  | some v =>
    unfold get_track_blueprint
    rw [lookupTags_setTags_self cache key (some d) v hl]
  | none =>
    unfold get_track_blueprint
    rw [lookupTags_append cache key (some d) hl]

/-- Persisting without tags leaves the stored blueprint unchanged. -/
theorem get_insertTags_none (cache : Cache) (key : CacheKey) :
    get_track_blueprint (insertTags cache key none) key = get_track_blueprint cache key := by
  unfold insertTags
  cases hl : lookupTags cache key with
  | some v => rfl
  | none =>
    unfold get_track_blueprint
    rw [lookupTags_append cache key none hl, hl]

-- ---------------------------------------------------------------------------
-- Reduction laws for process_track.
-- ---------------------------------------------------------------------------

/-- Clear mode: the track is cleared and persisted without tags, with no
classifier call. -/
theorem process_track_clear (cfg : Dict) (cache : Cache) (clf : Dict) (tr : Track)
    (hlev : levelIsClear cfg = true) :
    process_track cfg cache clf tr =
      .ok ⟨clear_ai_tags tr, insertTags cache (trackKey tr) none, 0, none⟩ := by
  unfold process_track
  rw [hlev]
  rfl

/-- A cache hit on a nonempty stored blueprint: the classifier is not
consulted, and the stored blueprint alone drives validation, rendering
and persistence. -/
theorem process_track_hit (cfg : Dict) (cache : Cache) (clf : Dict) (tr : Track) (b : Dict)
    (hlev : levelIsClear cfg = false)
    (hget : get_track_blueprint cache (trackKey tr) = some b)
    (hbne : b.isEmpty = false) :
    process_track cfg cache clf tr =
      (if truthy (pyDictGet b "primary_genre") then
        (do
          let rs ← render_strings cfg b
          Except.ok ⟨applyToTrack rs tr, insertTags cache (trackKey tr) (some b), 0, some b⟩)
       else .ok ⟨tr, insertTags cache (trackKey tr) none, 0, none⟩) := by
  unfold process_track
  rw [hlev, hget]
  by_cases hv : truthy (pyDictGet b "primary_genre") <;>
    simp [hbne, hv]

/-- A cache miss (no stored row, NULL or undecodable tags): the
classifier result drives validation, rendering and persistence. -/
theorem process_track_miss (cfg : Dict) (cache : Cache) (clf : Dict) (tr : Track)
    (hlev : levelIsClear cfg = false)
    (hget : get_track_blueprint cache (trackKey tr) = none) :
    process_track cfg cache clf tr =
      (if clf.isEmpty || !truthy (pyDictGet clf "primary_genre") then
        .ok ⟨tr, insertTags cache (trackKey tr) none, 1, none⟩
       else do
        let rs ← render_strings cfg clf
        Except.ok ⟨applyToTrack rs tr, insertTags cache (trackKey tr) (some clf), 1, some clf⟩) := by
  unfold process_track
  rw [hlev, hget]
  simp

/-- A stored empty blueprint is falsy and is treated exactly as a miss:
the classifier is consulted. -/
theorem process_track_missEmpty (cfg : Dict) (cache : Cache) (clf : Dict) (tr : Track)
    (hlev : levelIsClear cfg = false)
    (hget : get_track_blueprint cache (trackKey tr) = some []) :
    process_track cfg cache clf tr =
      (if clf.isEmpty || !truthy (pyDictGet clf "primary_genre") then
        .ok ⟨tr, insertTags cache (trackKey tr) none, 1, none⟩
       else do
        let rs ← render_strings cfg clf
        Except.ok ⟨applyToTrack rs tr, insertTags cache (trackKey tr) (some clf), 1, some clf⟩) := by
  unfold process_track
  rw [hlev, hget]
  simp

-- ---------------------------------------------------------------------------
-- Claim C1: cache hit skips classification; cache miss classifies once.
-- ---------------------------------------------------------------------------

/-- A cache row storing the empty blueprint for the track identity. -/
def cacheC1 : Cache := [((some "T", some "A"), some [])]

/-- A classifier result whose primary_genre is the (falsy) empty list. -/
def clfC1 : Dict := [("primary_genre", .arr [])]

/-- The track and configuration of the C1 counterexample run. -/
def trC1 : Track := { Name := some "T", Artist := some "A", Genre := some "Old" }

/-- A Detailed-level configuration with the caps of the master config. -/
def cfgC1 : Dict :=
  [("level", .str "Detailed"), ("sub_genre", .num 3), ("energy_vibe", .num 3),
   ("situation_environment", .num 3), ("components", .num 3), ("time_period", .num 1)]

/-- C1 (counterexample): on a cache miss the claim asserts that the
classifier result is persisted unconditionally, overwriting any stored
blueprint. Here the identity has a stored (empty, hence falsy) blueprint,
the classifier is invoked, and its degenerate result — whose
primary_genre is the empty list — is NOT persisted: the track row keeps
its old tags and the persisted tags argument is None. -/
theorem C1_counterexample :
    (process_track cfgC1 cacheC1 clfC1 trC1).toOption.map (fun r => r.llmCalls) = some 1
    ∧ (process_track cfgC1 cacheC1 clfC1 trC1).toOption.map (fun r => r.persisted) = some none
    ∧ (process_track cfgC1 cacheC1 clfC1 trC1).toOption.map (fun r => r.cache) = some cacheC1 :=
  ⟨rfl, rfl, rfl⟩

/-- C1 (amended): in a non-Clear run, a track whose identity yields a
nonempty cached blueprint is processed without any classifier call, and
its outcome does not depend on the classifier at all; a track with a
cache miss (or an empty cached blueprint) invokes the classifier exactly
once, and the resulting blueprint is persisted with overwrite semantics
precisely when its primary_genre is truthy — a degenerate result is not
persisted and leaves the stored blueprint unchanged. -/
theorem C1_amended (cfg : Dict) (cache : Cache) (clf clf2 : Dict) (tr : Track)
    (hlev : levelIsClear cfg = false) :
    (∀ b, get_track_blueprint cache (trackKey tr) = some b → b.isEmpty = false →
        (∀ r, process_track cfg cache clf tr = .ok r → r.llmCalls = 0)
        ∧ process_track cfg cache clf tr = process_track cfg cache clf2 tr)
    ∧ ((get_track_blueprint cache (trackKey tr) = none
          ∨ get_track_blueprint cache (trackKey tr) = some []) →
        ∀ r, process_track cfg cache clf tr = .ok r →
          r.llmCalls = 1
          ∧ ((clf.isEmpty || !truthy (pyDictGet clf "primary_genre")) = false →
              r.persisted = some clf
              ∧ get_track_blueprint r.cache (trackKey tr) = some clf)
          ∧ ((clf.isEmpty || !truthy (pyDictGet clf "primary_genre")) = true →
              r.persisted = none
              ∧ get_track_blueprint r.cache (trackKey tr)
                  = get_track_blueprint cache (trackKey tr))) := by
  constructor
  · intro b hget hbne
    constructor
    · intro r hr
      rw [process_track_hit cfg cache clf tr b hlev hget hbne] at hr
      by_cases hv : truthy (pyDictGet b "primary_genre")
      · rw [if_pos hv] at hr
        cases hrs : render_strings cfg b with
        | ok rs =>
          rw [hrs] at hr
          simp only [Except.bind, Except.ok.injEq, bind, pure] at hr
          rw [← hr]
        | error e =>
          rw [hrs] at hr
          simp [Except.bind, bind] at hr
      · rw [if_neg hv] at hr
        simp only [Except.ok.injEq] at hr
        rw [← hr]
    · rw [process_track_hit cfg cache clf tr b hlev hget hbne,
          process_track_hit cfg cache clf2 tr b hlev hget hbne]
  · intro hmiss r hr
    have hform : process_track cfg cache clf tr =
        (if clf.isEmpty || !truthy (pyDictGet clf "primary_genre") then
          .ok ⟨tr, insertTags cache (trackKey tr) none, 1, none⟩
         else do
          let rs ← render_strings cfg clf
          Except.ok ⟨applyToTrack rs tr, insertTags cache (trackKey tr) (some clf), 1, some clf⟩) := by
      rcases hmiss with hm | hm
      · exact process_track_miss cfg cache clf tr hlev hm
      · exact process_track_missEmpty cfg cache clf tr hlev hm
    rw [hform] at hr
    by_cases hdeg : (clf.isEmpty || !truthy (pyDictGet clf "primary_genre")) = true
    · rw [if_pos hdeg] at hr
      simp only [Except.ok.injEq] at hr
      refine ⟨by rw [← hr], ?_, ?_⟩
      · intro hok; rw [hok] at hdeg; simp at hdeg
      · intro _
        rw [← hr]
        exact ⟨rfl, get_insertTags_none cache (trackKey tr)⟩
    · have hdeg2 : (clf.isEmpty || !truthy (pyDictGet clf "primary_genre")) = false := by
        simpa using hdeg
      rw [if_neg hdeg] at hr
      cases hrs : render_strings cfg clf with
      | ok rs =>
        rw [hrs] at hr
        simp only [Except.bind, Except.ok.injEq, bind, pure] at hr
        refine ⟨by rw [← hr], ?_, ?_⟩
        · intro _
          rw [← hr]
          exact ⟨rfl, get_insertTags_some cache (trackKey tr) clf⟩
        · intro hbad; rw [hbad] at hdeg; simp at hdeg
      | error e =>
        rw [hrs] at hr
        simp [Except.bind, bind] at hr

-- ---------------------------------------------------------------------------
-- Claim C9: the persisted blueprint is the full untrimmed one.
-- ---------------------------------------------------------------------------

/-- C9: in a non-Clear run on a valid cached blueprint, the blueprint
persisted with the track (and readable from the cache afterwards) is the
full untrimmed blueprint — never the trimmed rendering, whenever the two
differ. The source guarantees this by deep-copying the blueprint through
a json round trip before trimming, so `apply_user_config_to_tags` cannot
mutate its argument. -/
theorem C9_persist (cfg : Dict) (cache : Cache) (clf : Dict) (tr : Track) (b : Dict)
    (r : StepResult)
    (hlev : levelIsClear cfg = false)
    (hget : get_track_blueprint cache (trackKey tr) = some b)
    (hbne : b.isEmpty = false)
    (hpg : truthy (pyDictGet b "primary_genre") = true)
    (hr : process_track cfg cache clf tr = .ok r) :
    r.persisted = some b
    ∧ get_track_blueprint r.cache (trackKey tr) = some b
    ∧ (∀ d, apply_user_config_to_tags b cfg = .ok d → d ≠ b → r.persisted ≠ some d) := by
  rw [process_track_hit cfg cache clf tr b hlev hget hbne, if_pos hpg] at hr
  cases hrs : render_strings cfg b with
  | ok rs =>
    rw [hrs] at hr
    simp only [Except.bind, Except.ok.injEq, bind, pure] at hr
    refine ⟨by rw [← hr], by rw [← hr]; exact get_insertTags_some cache (trackKey tr) b, ?_⟩
    intro d _ hne hcontra
    rw [← hr] at hcontra
    simp only [StepResult.persisted] at hcontra
    exact hne (by injection hcontra.symm)
  | error e =>
    rw [hrs] at hr
    simp [Except.bind, bind] at hr

/-- The cached blueprint, classifier stub, cache and track of the C9 and
C1 witness runs. -/
def clfW9 : Dict := [("primary_genre", .arr [.str "Stub"])]

/-- Cache holding the four-entry blueprint of `bpW6`. -/
def cacheW9 : Cache := [((some "T", some "A"), some bpW6)]

/-- The witness track. -/
def trW9 : Track := { Name := some "T", Artist := some "A", Genre := some "Old" }

/-- The computed outcome of the witness run. -/
def rW9 : StepResult :=
  (process_track cfgW6 cacheW9 clfW9 trW9).toOption.getD ⟨trW9, [], 0, none⟩

/-- C9 (witness): the witness run persists the full four-entry blueprint
even though the rendering trimmed `sub_genre` to three entries. -/
theorem C9_witness :
    rW9.persisted = some bpW6
    ∧ get_track_blueprint rW9.cache (trackKey trW9) = some bpW6 := by
  have h := C9_persist cfgW6 cacheW9 clfW9 trW9 bpW6 rW9 rfl rfl rfl rfl rfl
  exact ⟨h.1, h.2.1⟩

/-- An alternative classifier stub for the C1 witness. -/
def clfAlt : Dict := [("primary_genre", .arr [.str "Different"])]

/-- C1 (witness): the witness run is a cache hit — no classifier call is
made, and swapping the classifier result changes nothing. -/
theorem C1_witness :
    rW9.llmCalls = 0
    ∧ process_track cfgW6 cacheW9 clfW9 trW9 = process_track cfgW6 cacheW9 clfAlt trW9 := by
  have h := (C1_amended cfgW6 cacheW9 clfW9 clfAlt trW9 rfl).1 bpW6 rfl rfl
  exact ⟨h.1 rW9 rfl, h.2⟩

-- ---------------------------------------------------------------------------
-- Claim C4: the manual-override colour sentinel.
-- ---------------------------------------------------------------------------

/-- On a sentinel-coloured track the rendering leaves Colour and Grouping
untouched, still overwrites the Rating from the energy level, and writes
the same Genre and Comments it would write without the sentinel. -/
theorem applyToTrack_sentinel (rs : Rendered) (tr : Track)
    (hcol : tr.Colour = some "0xFF0000") :
    (applyToTrack rs tr).Colour = some "0xFF0000"
    ∧ (applyToTrack rs tr).Grouping = tr.Grouping
    ∧ (applyToTrack rs tr).Rating
        = some (toString (track_rating (pyDictGet rs.tags "energy_level")))
    ∧ (applyToTrack rs tr).Genre = (applyToTrack rs { tr with Colour := none }).Genre
    ∧ (applyToTrack rs tr).Comments = (applyToTrack rs { tr with Colour := none }).Comments := by
  cases hec : energyColour (pyDictGet rs.tags "energy_level") with
  | some hn => simp [applyToTrack, clear_ai_tags, hcol, hec]
  | none => simp [applyToTrack, clear_ai_tags, hcol, hec]

/-- The cached blueprint, cache, track and config of the C4 runs. -/
def bpC4 : Dict :=
  [("primary_genre", .arr [.str "House"]), ("sub_genre", .arr []), ("energy_level", .num 9)]

/-- Cache holding that blueprint for the track identity. -/
def cacheC4 : Cache := [((some "T", some "A"), some bpC4)]

/-- A sentinel-coloured track carrying a manual rating of 77. -/
def trC4 : Track :=
  { Name := some "T", Artist := some "A", Genre := some "Old",
    Colour := some "0xFF0000", Rating := some "77" }

/-- A Detailed-level configuration. -/
def cfgC4 : Dict :=
  [("level", .str "Detailed"), ("sub_genre", .num 3), ("energy_vibe", .num 3),
   ("situation_environment", .num 3), ("components", .num 3), ("time_period", .num 1)]

/-- An unused classifier stub (the run is a cache hit). -/
def clfC4 : Dict := [("primary_genre", .arr [.str "X"])]

/-- C4 (counterexample): the claim asserts that on a sentinel-coloured
track the Colour, Grouping AND Rating attributes are left unchanged. The
code guards only the Colour/Grouping block with the sentinel; the Rating
assignment is unconditional, so the manual rating 77 is overwritten with
255 computed from the cached energy level 9. -/
theorem C4_counterexample :
    trC4.Colour = some "0xFF0000"
    ∧ trC4.Rating = some "77"
    ∧ (process_track cfgC4 cacheC4 clfC4 trC4).toOption.map (fun r => r.track.Rating)
        = some (some "255")
    ∧ (process_track cfgC4 cacheC4 clfC4 trC4).toOption.map (fun r => r.track.Colour)
        = some (some "0xFF0000")
    ∧ (some "255" : Option String) ≠ some "77" :=
  ⟨rfl, rfl, rfl, rfl, by decide⟩

/-- C4 (amended): on a valid cached blueprint, a track whose Colour is
the manual-override sentinel 0xFF0000 keeps its Colour and Grouping
through the rendering step, while its Rating is still recomputed from the
blueprint energy level, and its Genre and Comments receive exactly the
section-4.3 rendering they would receive without the sentinel. -/
theorem C4_amended (cfg : Dict) (cache : Cache) (clf : Dict) (tr : Track) (b : Dict)
    (rs : Rendered)
    (hlev : levelIsClear cfg = false)
    (hget : get_track_blueprint cache (trackKey tr) = some b)
    (hbne : b.isEmpty = false)
    (hpg : truthy (pyDictGet b "primary_genre") = true)
    (hrs : render_strings cfg b = .ok rs)
    (hcol : tr.Colour = some "0xFF0000") :
    process_track cfg cache clf tr =
      .ok ⟨applyToTrack rs tr, insertTags cache (trackKey tr) (some b), 0, some b⟩
    ∧ (applyToTrack rs tr).Colour = tr.Colour
    ∧ (applyToTrack rs tr).Grouping = tr.Grouping
    ∧ (applyToTrack rs tr).Rating
        = some (toString (track_rating (pyDictGet rs.tags "energy_level")))
    ∧ (applyToTrack rs tr).Genre = (applyToTrack rs { tr with Colour := none }).Genre
    ∧ (applyToTrack rs tr).Comments = (applyToTrack rs { tr with Colour := none }).Comments := by
  have happ := applyToTrack_sentinel rs tr hcol
  refine ⟨?_, hcol ▸ happ.1, happ.2.1, happ.2.2.1, happ.2.2.2.1, happ.2.2.2.2⟩
  rw [process_track_hit cfg cache clf tr b hlev hget hbne, if_pos hpg, hrs]
  rfl

/-- The rendering data of the C4 witness run. -/
def rsC4 : Rendered := (render_strings cfgC4 bpC4).toOption.getD ⟨[], "", []⟩

/-- C4 (witness): the sentinel run at the concrete inputs. -/
theorem C4_witness :
    process_track cfgC4 cacheC4 clfC4 trC4 =
      .ok ⟨applyToTrack rsC4 trC4, insertTags cacheC4 (trackKey trC4) (some bpC4), 0, some bpC4⟩
    ∧ (applyToTrack rsC4 trC4).Colour = trC4.Colour
    ∧ (applyToTrack rsC4 trC4).Grouping = trC4.Grouping
    ∧ (applyToTrack rsC4 trC4).Rating
        = some (toString (track_rating (pyDictGet rsC4.tags "energy_level"))) := by
  have h := C4_amended cfgC4 cacheC4 clfC4 trC4 bpC4 rsC4 rfl rfl rfl rfl rfl rfl
  exact ⟨h.1, h.2.1, h.2.2.1, h.2.2.2.1⟩

-- ---------------------------------------------------------------------------
-- Claim C8: the "None" detail level.
-- ---------------------------------------------------------------------------

/-- The rendering computations read the config only at the five
trimmable keys, so the stored level value is irrelevant to them. -/
theorem render_strings_level (cfg : Dict) (v1 v2 : Json) (bp : Dict) :
    render_strings (dictSet cfg "level" v1) bp
      = render_strings (dictSet cfg "level" v2) bp := by
  have hc : ∀ k ∈ trimKeys,
      dictGet (dictSet cfg "level" v1) k = dictGet (dictSet cfg "level" v2) k := by
    intro k hk
    have hne : "level" ≠ k := by fin_cases hk <;> decide
    rw [dictGet_dictSet_ne cfg "level" k v1 hne, dictGet_dictSet_ne cfg "level" k v2 hne]
  unfold render_strings apply_user_config_to_tags
  rw [trimFold_congr _ _ trimKeys bp hc]

/-- The level-None run of the C8 counterexample. -/
def cfgC8 : Dict :=
  [("level", .str "None"), ("sub_genre", .num 3), ("energy_vibe", .num 3),
   ("situation_environment", .num 3), ("components", .num 3), ("time_period", .num 1)]

/-- A valid classifier result for the uncached track. -/
def clfC8 : Dict :=
  [("primary_genre", .arr [.str "House"]), ("sub_genre", .arr []), ("energy_level", .num 7)]

/-- An uncached track with no genre. -/
def trC8 : Track := { Name := some "N", Artist := some "B" }

/-- C8 (counterexample): the claim asserts that a run at level "None"
persists every track unchanged with an empty blueprint and never invokes
the classifier. The code has no branch for the "None" level at all: on an
empty cache the classifier is invoked once, the Genre attribute is
written, and the full classifier blueprint is persisted. -/
theorem C8_counterexample :
    (process_track cfgC8 [] clfC8 trC8).toOption.map (fun r => r.llmCalls) = some 1
    ∧ (process_track cfgC8 [] clfC8 trC8).toOption.map (fun r => r.track.Genre)
        = some (some "House")
    ∧ trC8.Genre = none
    ∧ (process_track cfgC8 [] clfC8 trC8).toOption.map (fun r => r.persisted)
        = some (some clfC8) :=
  ⟨rfl, rfl, rfl, rfl⟩

/-- C8 (amended): the level "None" receives no special handling: a run
whose configuration carries level "None" processes every track exactly as
the same configuration at level "Detailed" — through the normal cache,
classification, rendering and persistence path. -/
theorem C8_amended (cfg : Dict) (cache : Cache) (clf : Dict) (tr : Track) :
    process_track (dictSet cfg "level" (.str "None")) cache clf tr
      = process_track (dictSet cfg "level" (.str "Detailed")) cache clf tr := by
  have hl1 : levelIsClear (dictSet cfg "level" (.str "None")) = false := by
    unfold levelIsClear
    rw [dictGet_dictSet_self]
    rfl
  have hl2 : levelIsClear (dictSet cfg "level" (.str "Detailed")) = false := by
    unfold levelIsClear
    rw [dictGet_dictSet_self]
    rfl
  unfold process_track
  rw [hl1, hl2]
  simp only [Bool.false_eq_true, if_false]
  simp only [render_strings_level cfg (.str "None") (.str "Detailed")]

-- ---------------------------------------------------------------------------
-- Claim C7: stage 2 of the genre bucketizer.
-- ---------------------------------------------------------------------------

theorem dictMember_dictSet_self (d : Dict) (k : String) (v : Json) :
    dictMember (dictSet d k v) k = true := by
  unfold dictMember
  rw [dictGet_dictSet_self]
  rfl

theorem dictMember_dictSet_ne (d : Dict) (k key : String) (v : Json) (h : k ≠ key) :
    dictMember (dictSet d k v) key = dictMember d key := by
  unfold dictMember
  rw [dictGet_dictSet_ne d k key v h]

/-- Updating with pairs whose keys avoid `g` leaves `g` alone. -/
theorem dictGet_dictUpdate_notkey (g : String) :
    ∀ (ps : List (String × Json)) (acc : Dict), g ∉ ps.map Prod.fst →
      dictGet (dictUpdate acc ps) g = dictGet acc g := by
  intro ps
  induction ps with
  | nil => intro acc _; rfl
  | cons kv ps ih =>
    intro acc hg
    have hk : kv.1 ≠ g := by
      intro he
      exact hg (by rw [List.map_cons]; exact he ▸ List.mem_cons_self kv.1 _)
    have hrest : g ∉ ps.map Prod.fst := by
      intro hm
      exact hg (by rw [List.map_cons]; exact List.mem_cons_of_mem _ hm)
    show dictGet (dictUpdate (dictSet acc kv.1 kv.2) ps) g = dictGet acc g
    rw [ih (dictSet acc kv.1 kv.2) hrest]
    exact dictGet_dictSet_ne acc kv.1 g kv.2 hk

/-- Updating with the pairs of a batch pins every batch genre to its
looked-up value. -/
theorem dictGet_dictUpdate_batch (f : String → Json) :
    ∀ (batch : List String) (acc : Dict) (g : String), batch.Nodup → g ∈ batch →
      dictGet (dictUpdate acc (batch.map (fun x => (x, f x)))) g = some (f g) := by
  intro batch
  induction batch with
  | nil => intro acc g _ hg; exact absurd hg (List.not_mem_nil g)
  | cons b bs ih =>
    intro acc g hnd hg
    show dictGet (dictUpdate (dictSet acc b (f b)) (bs.map (fun x => (x, f x)))) g = some (f g)
    rcases List.mem_cons.mp hg with he | hm
    · subst he
      have hnb : g ∉ bs := (List.nodup_cons.mp hnd).1
      have hkeys : g ∉ (bs.map (fun x => (x, f x))).map Prod.fst := by
        intro hk
        apply hnb
        simpa using hk
      rw [dictGet_dictUpdate_notkey g _ _ hkeys]
      exact dictGet_dictSet_self acc g (f g)
    · exact ih (dictSet acc b (f b)) g (List.nodup_cons.mp hnd).2 hm

/-- The fallback loop leaves genres outside the batch alone. -/
theorem fallbackFold_get_notin (g : String) :
    ∀ (batch : List String) (acc : Dict), g ∉ batch →
      dictGet (fallbackFold acc batch) g = dictGet acc g := by
  intro batch
  induction batch with
  | nil => intro acc _; rfl
  | cons b bs ih =>
    intro acc hg
    have hb : b ≠ g := fun he => hg (he ▸ List.mem_cons_self b bs)
    have hbs : g ∉ bs := fun hm => hg (List.mem_cons_of_mem b hm)
    show dictGet (fallbackFold (if dictMember acc b then acc
      else dictSet acc b (.str "Miscellaneous")) bs) g = dictGet acc g
    by_cases hmem : dictMember acc b
    · rw [if_pos hmem]
      exact ih acc hbs
    · rw [if_neg hmem, ih _ hbs]
      exact dictGet_dictSet_ne acc b g _ hb

/-- The fallback loop never rewrites a key that is already present. -/
theorem fallbackFold_get_present (g : String) :
    ∀ (batch : List String) (acc : Dict), dictMember acc g = true →
      dictGet (fallbackFold acc batch) g = dictGet acc g := by
  intro batch
  induction batch with
  | nil => intro acc _; rfl
  | cons b bs ih =>
    intro acc hmem
    show dictGet (fallbackFold (if dictMember acc b then acc
      else dictSet acc b (.str "Miscellaneous")) bs) g = dictGet acc g
    by_cases hb : dictMember acc b
    · rw [if_pos hb]
      exact ih acc hmem
    · rw [if_neg hb]
      by_cases hbg : b = g
      · subst hbg
        rw [hmem] at hb
        simp at hb
      · rw [ih _ (by rw [dictMember_dictSet_ne acc b g _ hbg]; exact hmem)]
        exact dictGet_dictSet_ne acc b g _ hbg

/-- The fallback loop assigns "Miscellaneous" to a batch genre that is
still missing from the map. -/
theorem fallbackFold_get_missing (g : String) :
    ∀ (batch : List String) (acc : Dict), batch.Nodup → g ∈ batch →
      dictMember acc g = false →
      dictGet (fallbackFold acc batch) g = some (.str "Miscellaneous") := by
  intro batch
  induction batch with
  | nil => intro acc _ hg; exact absurd hg (List.not_mem_nil g)
  | cons b bs ih =>
    intro acc hnd hg hmem
    show dictGet (fallbackFold (if dictMember acc b then acc
      else dictSet acc b (.str "Miscellaneous")) bs) g = some (.str "Miscellaneous")
    rcases List.mem_cons.mp hg with he | hm
    · subst he
      rw [if_neg (by rw [hmem]; simp)]
      rw [fallbackFold_get_notin g bs _ (List.nodup_cons.mp hnd).1]
      exact dictGet_dictSet_self acc g _
    · have hb : b ≠ g := fun he => (List.nodup_cons.mp hnd).1 (he ▸ hm)
      by_cases hbm : dictMember acc b
      · rw [if_pos hbm]
        exact ih acc (List.nodup_cons.mp hnd).2 hm hmem
      · rw [if_neg hbm]
        refine ih _ (List.nodup_cons.mp hnd).2 hm ?_
        rw [dictMember_dictSet_ne acc b g _ hb]
        exact hmem

/-- Keys of the validated batch pairs. -/
theorem batch_pairs_keys (f : String → Json) (batch : List String) :
    (batch.map (fun x => (x, f x))).map Prod.fst = batch := by
  induction batch with
  | nil => rfl
  | cons b bs ih => simp only [List.map_cons, ih]

/-- Processing never touches genres outside the remaining list. -/
theorem gmLoop_preserve (oracle : Nat → Nat → Attempt) :
    ∀ (fuel bi : Nat) (rem : List String) (acc m : Dict),
      gmLoop oracle fuel bi rem acc = .ok m →
      ∀ g, g ∉ rem → dictGet m g = dictGet acc g := by
  intro fuel
  induction fuel with
  | zero =>
    intro bi rem acc m h g _
    simp only [gmLoop, Except.ok.injEq] at h
    rw [h]
  | succ fuel ih =>
    intro bi rem acc m h g hg
    cases rem with
    | nil =>
      simp only [gmLoop, Except.ok.injEq] at h
      rw [h]
    | cons g0 rest =>
      unfold gmLoop at h
      cases hb : batchLoop (oracle bi) 0 5 with
      | error e => rw [hb] at h; simp [Except.bind, bind] at h
      | ok net =>
        rw [hb] at h
        simp only [Except.bind, bind, pure] at h
        have hgb : g ∉ (g0 :: rest).take 10 := fun hm => hg (List.take_subset 10 _ hm)
        have hgd : g ∉ (g0 :: rest).drop 10 := fun hm => hg (List.drop_subset 10 _ hm)
        rw [ih _ _ _ _ h g hgd]
        rw [fallbackFold_get_notin g _ _ hgb]
        cases net with
        | none => rfl
        | some resp =>
          show dictGet (dictUpdate acc
            (((g0 :: rest).take 10).map (fun x => (x, lowerLookup resp x)))) g = dictGet acc g
          rw [dictGet_dictUpdate_notkey g _ acc (by
            rw [batch_pairs_keys]
            exact hgb)]

/-- The step equation of the verdict projection. -/
theorem gmVerdict_cons (oracle : Nat → Nat → Attempt) (fuel bi : Nat) (g0 : String)
    (rest : List String) (x : String) :
    gmVerdict oracle (fuel + 1) bi (g0 :: rest) x =
      (if x ∈ (g0 :: rest).take 10 then
        match batchLoop (oracle bi) 0 5 with
        | .ok (some resp) => lowerLookup resp x
        | _ => .str "Miscellaneous"
       else gmVerdict oracle fuel (bi + 1) ((g0 :: rest).drop 10) x) := rfl

/-- The per-genre characterisation of the batch loop. -/
theorem gmLoop_verdict (oracle : Nat → Nat → Attempt) :
    ∀ (fuel bi : Nat) (rem : List String) (acc m : Dict),
      rem.Nodup → (∀ g ∈ rem, dictMember acc g = false) →
      rem.length ≤ fuel →
      gmLoop oracle fuel bi rem acc = .ok m →
      ∀ g ∈ rem, dictGet m g = some (gmVerdict oracle fuel bi rem g) := by
  intro fuel
  induction fuel with
  | zero =>
    intro bi rem acc m _ _ hlen h g hg
    rw [List.length_eq_zero.mp (Nat.le_zero.mp hlen)] at hg
    exact absurd hg (List.not_mem_nil g)
  | succ fuel ih =>
    intro bi rem acc m hnd hfree hlen h g hg
    cases rem with
    | nil => exact absurd hg (List.not_mem_nil g)
    | cons g0 rest =>
      unfold gmLoop at h
      cases hb : batchLoop (oracle bi) 0 5 with
      | error e => rw [hb] at h; simp [Except.bind, bind] at h
      | ok net =>
        rw [hb] at h
        simp only [Except.bind, bind, pure] at h
        have hsplit := List.take_append_drop 10 (g0 :: rest)
        have hnd2 : (((g0 :: rest).take 10) ++ ((g0 :: rest).drop 10)).Nodup := by
          rw [hsplit]; exact hnd
        rcases List.nodup_append.mp hnd2 with ⟨hnb, hndd, hdisj⟩
        have hlen2 : ((g0 :: rest).drop 10).length ≤ fuel := by
          rw [List.length_drop]
          simp only [List.length_cons] at hlen ⊢
          omega
        rcases List.mem_append.mp (by rw [hsplit]; exact hg :
            g ∈ ((g0 :: rest).take 10) ++ ((g0 :: rest).drop 10)) with hgt | hgd
        · have hgd2 : g ∉ (g0 :: rest).drop 10 := hdisj hgt
          cases net with
          | some resp =>
            rw [gmLoop_preserve oracle fuel (bi + 1) _ _ m h g hgd2]
            have hupd := dictGet_dictUpdate_batch (fun x => lowerLookup resp x)
              ((g0 :: rest).take 10) acc g hnb hgt
            rw [fallbackFold_get_present g _ _ (by unfold dictMember; rw [hupd]; rfl), hupd]
            rw [gmVerdict_cons, if_pos hgt, hb]
          | none =>
            rw [gmLoop_preserve oracle fuel (bi + 1) _ _ m h g hgd2]
            rw [fallbackFold_get_missing g _ acc hnb hgt
              (hfree g (List.take_subset 10 _ hgt))]
            rw [gmVerdict_cons, if_pos hgt, hb]
        · have hgt2 : g ∉ (g0 :: rest).take 10 := fun hm => hdisj hm hgd
          cases net with
          | some resp =>
            have hfree2 : ∀ g2 ∈ (g0 :: rest).drop 10,
                dictMember (fallbackFold
                  (dictUpdate acc
                    (((g0 :: rest).take 10).map (fun x => (x, lowerLookup resp x))))
                  ((g0 :: rest).take 10)) g2 = false := by
              intro g2 hg2
              have hg2t : g2 ∉ (g0 :: rest).take 10 := fun hm => hdisj hm hg2
              unfold dictMember
              rw [fallbackFold_get_notin g2 _ _ hg2t,
                  dictGet_dictUpdate_notkey g2 _ acc (by rw [batch_pairs_keys]; exact hg2t)]
              have hf := hfree g2 (List.drop_subset 10 _ hg2)
              unfold dictMember at hf
              exact hf
            have hres := ih (bi + 1) ((g0 :: rest).drop 10) _ m hndd hfree2 hlen2 h g hgd
            rw [hres, gmVerdict_cons, if_neg hgt2]
          | none =>
            have hfree2 : ∀ g2 ∈ (g0 :: rest).drop 10,
                dictMember (fallbackFold acc ((g0 :: rest).take 10)) g2 = false := by
              intro g2 hg2
              have hg2t : g2 ∉ (g0 :: rest).take 10 := fun hm => hdisj hm hg2
              unfold dictMember
              rw [fallbackFold_get_notin g2 _ _ hg2t]
              have hf := hfree g2 (List.drop_subset 10 _ hg2)
              unfold dictMember at hf
              exact hf
            have hres := ih (bi + 1) ((g0 :: rest).drop 10) _ m hndd hfree2 hlen2 h g hgd
            rw [hres, gmVerdict_cons, if_neg hgt2]

/-- C7: whenever stage 2 produces a genre map, the map (after the fixed
R&B override) contains every input genre as a key, with the value
determined by the batch of 10 holding the genre: the case-insensitive lookup of
the classifier response on success, "Miscellaneous" for a genre missing
from the response or belonging to a batch that exhausted its 5 retries or
returned undecodable JSON (`gmVerdict` reads off exactly this), and the key
"R&B", when present, is reassigned to "Hip Hop" regardless of the
classifier answer, all other keys being untouched by the override. -/
theorem C7_genre_map (oracle : Nat → Nat → Attempt) (genres : List String) (m : Dict)
    (hnd : genres.Nodup)
    (h : get_genre_map_from_ai oracle genres = .ok m) :
    (∀ g ∈ genres, dictGet m g = some (gmVerdict oracle genres.length 0 genres g))
    ∧ (dictMember m "R&B" = true → dictGet (rbOverride m) "R&B" = some (.str "Hip Hop"))
    ∧ (∀ g, g ≠ "R&B" → dictGet (rbOverride m) g = dictGet m g) := by
  refine ⟨?_, ?_, ?_⟩
  · intro g hg
    exact gmLoop_verdict oracle genres.length 0 genres [] m hnd (fun _ _ => rfl)
      (le_refl _) h g hg
  · intro hmem
    unfold rbOverride
    rw [hmem]
    simp only [if_true]
    exact dictGet_dictSet_self m _ _
  · intro g hgne
    unfold rbOverride
    by_cases hmem : dictMember m "R&B"
    · rw [hmem]
      simp only [if_true]
      exact dictGet_dictSet_ne m "R&B" g _ (Ne.symm hgne)
    · rw [Bool.not_eq_true] at hmem
      rw [hmem]
      simp

/-- The response batch of the spec scenario: the classifier maps the two
electronic genres and omits the rest. -/
def respC7 : Dict := [("Deep House", .str "Electronic"), ("Acid Techno", .str "Electronic")]

/-- An oracle answering every batch attempt with that response. -/
def oracleC7 : Nat → Nat → Attempt := fun _ _ => .http envContentX (some (.obj respC7))

/-- The raw genres of the spec scenario. -/
def genresC7 : List String := ["Deep House", "Acid Techno", "R&B", "Unknown Xyz"]

/-- The produced genre map of the scenario. -/
def mC7 : Dict := (get_genre_map_from_ai oracleC7 genresC7).toOption.getD []

/-- C7 (witness): the spec bucketizer scenario — the two mapped genres
land in Electronic, the omitted genre falls back to Miscellaneous, and
the R&B override lands it in Hip Hop. -/
theorem C7_witness :
    dictGet mC7 "Deep House" = some (gmVerdict oracleC7 4 0 genresC7 "Deep House")
    ∧ dictGet (rbOverride mC7) "R&B" = some (.str "Hip Hop")
    ∧ rbOverride mC7 =
        [("Deep House", .str "Electronic"), ("Acid Techno", .str "Electronic"),
         ("R&B", .str "Hip Hop"), ("Unknown Xyz", .str "Miscellaneous")] := by
  have h := C7_genre_map oracleC7 genresC7 mC7 (by decide) rfl
  exact ⟨h.1 "Deep House" (by decide), h.2.1 rfl, rfl⟩

-- ---------------------------------------------------------------------------
-- Claim C10: stage 1 raw-genre resolution.
-- ---------------------------------------------------------------------------

/-- The entries of a JSON value when it is a list. -/
def arrOf : Json → List Json
  | .arr xs => xs
  | _ => []

/-- Is the value a non-empty string? -/
def isNonEmptyStr : Json → Bool
  | .str s => s != ""
  | _ => false

/-- An oracle whose genre_only response carries the number 5 as the first
primary_genre entry. -/
def oracleC10 : Nat → Attempt :=
  fun _ => .http envContentX (some (.obj [("primary_genre", .arr [.num 5])]))

/-- A track with a blank genre attribute. -/
def trC10 : Track := { Genre := some "" }

/-- C10 (counterexample): the claim asserts that `get_primary_genre`
always returns a non-empty string. A classifier response whose
primary_genre list starts with the (truthy) number 5 flows through
unchecked: the function returns the number 5, which is not a string at
all — and it then becomes a key of the stage-1 grouping. -/
theorem C10_counterexample :
    get_primary_genre oracleC10 trC10 = .ok (.num 5)
    ∧ (get_primary_genre oracleC10 trC10).toOption.map isNonEmptyStr = some false :=
  ⟨rfl, rfl⟩

/-- The step equation of the fallback path on a successful call. -/
theorem aiPrimary_ok (ai : Dict) :
    aiPrimary (.ok ai) =
      (if ai.isEmpty then .ok (.str "Miscellaneous")
       else
        match dictGet ai "primary_genre" with
        | some (.arr (e :: _)) => .ok (if truthy e then e else .str "Miscellaneous")
        | _ => .ok (.str "Miscellaneous")) := rfl

/-- C10 (amended): `get_primary_genre` returns the trimmed non-blank
first comma/slash segment of the existing genre when there is one, and
otherwise the first primary_genre entry of the classifier response when
that entry is truthy, falling back to "Miscellaneous"; provided every
entry of the response primary_genre list is a string, the result is
always a non-empty string (a whitespace-only or empty parsed segment
never becomes the result). -/
theorem C10_amended (oracle : Nat → Attempt) (tr : Track) (ai : Dict) (sl : List Int)
    (hai : call_llm_for_tags .genreOnly oracle = (.ok ai, sl))
    (hstr : ∀ x ∈ arrOf (pyDictGet ai "primary_genre"), ∃ s, x = .str s) :
    ∃ s, get_primary_genre oracle tr = .ok (.str s) ∧ s ≠ "" := by
  have h1 : (call_llm_for_tags .genreOnly oracle).1 = .ok ai := by rw [hai]
  unfold get_primary_genre
  by_cases hloc : (pyStrip (tr.Genre.getD "") != "" &&
      pyStrip (firstSeg (pyStrip (tr.Genre.getD ""))) != "") = true
  · rw [if_pos hloc]
    refine ⟨pyStrip (firstSeg (pyStrip (tr.Genre.getD ""))), rfl, ?_⟩
    exact bne_iff_ne.mp (Bool.and_elim_right hloc)
  · rw [if_neg hloc, h1, aiPrimary_ok]
    by_cases hempty : ai.isEmpty = true
    · rw [if_pos hempty]
      exact ⟨"Miscellaneous", rfl, by decide⟩
    · rw [if_neg hempty]
      cases hpg : dictGet ai "primary_genre" with
      | none => exact ⟨"Miscellaneous", rfl, by decide⟩
      | some v =>
        cases v with
        | arr xs =>
          cases xs with
          | nil => exact ⟨"Miscellaneous", rfl, by decide⟩
          | cons e es =>
            have he : e ∈ arrOf (pyDictGet ai "primary_genre") := by
              unfold pyDictGet
              rw [hpg]
              exact List.mem_cons_self e es
            obtain ⟨t, rfl⟩ := hstr e he
            by_cases ht : t = ""
            · subst ht
              refine ⟨"Miscellaneous", ?_, by decide⟩
              show Except.ok (ε := PyErr)
                (if truthy (.str "") = true then Json.str "" else .str "Miscellaneous")
                = .ok (.str "Miscellaneous")
              rw [if_neg (by decide)]
            · refine ⟨t, ?_, ht⟩
              show Except.ok (ε := PyErr)
                (if truthy (.str t) = true then Json.str t else .str "Miscellaneous")
                = .ok (.str t)
              rw [if_pos (by simpa [truthy] using bne_iff_ne.mpr ht)]
        | null => exact ⟨"Miscellaneous", rfl, by decide⟩
        | bool b => exact ⟨"Miscellaneous", rfl, by decide⟩
        | num n => exact ⟨"Miscellaneous", rfl, by decide⟩
        | str s2 => exact ⟨"Miscellaneous", rfl, by decide⟩
        | obj kvs => exact ⟨"Miscellaneous", rfl, by decide⟩

/-- A track whose genre string resolves locally. -/
def trW10 : Track := { Genre := some "House, Tech House" }

/-- C10 (witness): the local parse of "House, Tech House" yields the
non-empty string "House" (the classifier, here all transport failures,
is irrelevant). -/
theorem C10_witness :
    get_primary_genre (fun _ => Attempt.transport) trW10 = .ok (.str "House")
    ∧ (get_primary_genre (fun _ => Attempt.transport) trW10).toOption.map isNonEmptyStr
        = some true := by
  obtain ⟨s, hs, hne⟩ := C10_amended (fun _ => .transport) trW10 (fallback .genreOnly)
    [2, 4, 8, 16, 32] rfl
    (by
      intro x hx
      have hx2 : x ∈ [Json.str "Miscellaneous"] := hx
      exact ⟨"Miscellaneous", List.mem_singleton.mp hx2⟩)
  refine ⟨rfl, ?_⟩
  rw [hs]
  simp only [Except.toOption, Option.map]
  rw [show isNonEmptyStr (.str s) = (s != "") from rfl,
      show (s != "") = true from bne_iff_ne.mpr hne]

end TagGenius
